import Mathlib

/-!
# Verification of the sapcc/dnspython stub-resolver core

Shallow embedding of the resolver core of this repository and proofs of the
specification claims about it.

The repository ships the trio driver (`src/dns/trio/resolver.py`) and the unit
tests; the module `dns/resolver.py` that the driver and the tests exercise
(`_Resolution`, `Cache`, `LRUCache`, `Answer`, `NXDOMAIN`,
`Resolver._get_qnames_to_try`) is not part of `src/`.  Those operations are
therefore modelled from the specification (`spec.md`), cross-checked against
the repository's own unit tests (`src/tests/test_resolution.py`,
`src/tests/test_resolver.py`); each such definition carries a doc comment
saying so.  The driver loop itself is translated directly from
`src/dns/trio/resolver.py`.
-/

namespace Dns

/-- A DNS name: a sequence of text labels.  An absolute name ends with the
empty root label, mirroring `dns.name.Name` where `Name(('www', 'org', ''))`
is absolute and `Name(('www', 'org'))` is relative. -/
structure Name where
  labels : List String
deriving DecidableEq, Repr

/-- The root name, `dns.name.root`: the single empty label. -/
def nameRoot : Name := ⟨[""]⟩

/-- `dns.name.Name.is_absolute`: true when the name ends in the root label. -/
def Name.is_absolute (n : Name) : Bool := n.labels.getLast? == some ""

/-- `dns.name.Name.concatenate` / `+` as the resolver core uses it, on a
relative name and a suffix: append the suffix's labels. -/
def Name.concatenate (a b : Name) : Name := ⟨a.labels ++ b.labels⟩

/-- Number of labels, python `len(name)`.  For a relative name this is the
number of dots in its text form plus one. -/
def Name.len (n : Name) : ℕ := n.labels.length

/-- Record types, python `dns.rdatatype`: plain numeric codes. -/
abbrev RdataType := ℕ

/-- Record classes, python `dns.rdataclass`. -/
abbrev RdataClass := ℕ

def rdtypeA : RdataType := 1
def rdtypeCNAME : RdataType := 5
def rdtypeSOA : RdataType := 6
def rdtypePTR : RdataType := 12
def rdtypeMX : RdataType := 15
def rdtypeANY : RdataType := 255

def rdclassIN : RdataClass := 1

/-- Response codes, python `dns.rcode`: plain numeric codes. -/
abbrev Rcode := ℕ

def rcodeNOERROR : Rcode := 0
def rcodeSERVFAIL : Rcode := 2
def rcodeNXDOMAIN : Rcode := 3
def rcodeREFUSED : Rcode := 5
def rcodeYXDOMAIN : Rcode := 6

/-- Record data.  The core only inspects CNAME targets and the SOA minimum
field; anything else is opaque text. -/
inductive Rdata where
  | address (a : String)
  | cname (target : Name)
  | soa (minimum : ℚ)
  | text (s : String)
deriving DecidableEq, Repr

/-- A record set: `(owner_name, class, type, ttl, rdata...)` as in spec §3. -/
structure RRset where
  name : Name
  rdclass : RdataClass
  rdtype : RdataType
  ttl : ℚ
  items : List Rdata
deriving DecidableEq, Repr

/-- A question entry of a message. -/
structure Question where
  name : Name
  rdtype : RdataType
  rdclass : RdataClass
deriving DecidableEq, Repr

/-- The opaque wire message, restricted to the fields the core reads
(spec §3). -/
structure Message where
  ident : ℕ
  rcode : Rcode
  question : List Question
  answer : List RRset
  authority : List RRset
deriving DecidableEq, Repr

/-- Terminal errors of the resolver core (spec §7). -/
inductive ResolverError where
  | noAnswer
  | nxdomain (qnames : List Name) (responses : List (Name × Message))
  | yxdomain
  | noNameservers
  | tooManyAttempts
  | assertionFailed
deriving DecidableEq, Repr

/-- Python boundary errors surfaced by `Answer.__getitem__` /
`__delitem__`. -/
inductive PyErr where
  | indexError
deriving DecidableEq, Repr

/-- Modelled from the spec: `dns/resolver.py` is absent from `src/`; spec §4.A
step 1 follows the CNAME chain inside `message.answer` starting at the query
name, producing the canonical name.  Fuel bounds the chase by the number of
record sets, which suffices for any acyclic chain. -/
def chaseCname (rrsets : List RRset) (rdclass : RdataClass) : ℕ → Name → Name
  | 0, n => n
  | fuel + 1, n =>
    match rrsets.find? (fun r =>
        decide (r.name = n) && decide (r.rdclass = rdclass) &&
        decide (r.rdtype = rdtypeCNAME)) with
    | some r =>
      match r.items with
      | Rdata.cname t :: _ => chaseCname rrsets rdclass fuel t
      | _ => n
    | none => n

/-- Modelled from the spec: the canonical name of a query against a message
(spec §4.A step 1). -/
def canonicalName (msg : Message) (qname : Name) (rdclass : RdataClass) : Name :=
  chaseCname msg.answer rdclass msg.answer.length qname

/-- Modelled from the spec: spec §4.A step 2 locates the record set matching
`(canonical_name, rdclass, rdtype)` in the answer section. -/
def findRRset (rrsets : List RRset) (n : Name) (rdclass : RdataClass)
    (rdtype : RdataType) : Option RRset :=
  rrsets.find? (fun r =>
    decide (r.name = n) && decide (r.rdclass = rdclass) &&
    decide (r.rdtype = rdtype))

/-- Modelled from the spec: the SOA `minimum` field of the first SOA record
set in the authority section (spec §4.A step 4). -/
def soaMinimum (authority : List RRset) : Option ℚ :=
  match authority.find? (fun r => decide (r.rdtype = rdtypeSOA)) with
  | some r =>
    match r.items with
    | Rdata.soa m :: _ => some m
    | _ => none
  | none => none

/-- Modelled from the spec: `dns.resolver.Answer` (absent from `src/`),
spec §4.A: the resolved response plus derived canonical name, rrset and
expiration time. -/
structure Answer where
  qname : Name
  rdtype : RdataType
  rdclass : RdataClass
  response : Message
  canonical_name : Name
  rrset : Option RRset
  expiration : ℚ
deriving DecidableEq, Repr

/-- Modelled from the spec: the total part of the `Answer` constructor
(spec §4.A steps 1, 2 and 4): chase the CNAME chain, locate the rrset, and
derive the expiration time (minimum TTL of the rrset, else the SOA minimum
from the authority section, else the current time). -/
def mkAnswer (qname : Name) (rdtype : RdataType) (rdclass : RdataClass)
    (msg : Message) (now : ℚ) : Answer :=
  let cn := canonicalName msg qname rdclass
  let rrset := findRRset msg.answer cn rdclass rdtype
  let expiration :=
    match rrset with
    | some r => now + r.ttl
    | none =>
      match soaMinimum msg.authority with
      | some m => now + m
      | none => now
  { qname := qname, rdtype := rdtype, rdclass := rdclass, response := msg,
    canonical_name := cn, rrset := rrset, expiration := expiration }

/-- Modelled from the spec: the `Answer` constructor (spec §4.A step 3): when
no record set matches and `raise_on_no_answer` is true, fail with
`NoAnswer`. -/
def Answer.make (qname : Name) (rdtype : RdataType) (rdclass : RdataClass)
    (msg : Message) (raise_on_no_answer : Bool) (now : ℚ) :
    Except ResolverError Answer :=
  let a := mkAnswer qname rdtype rdclass msg now
  if raise_on_no_answer && a.rrset.isNone then .error .noAnswer else .ok a

/-- Modelled from the spec: iterating an `Answer` yields the rrset's records;
when the rrset is absent it yields nothing (spec §4.A). -/
def Answer.items (a : Answer) : List Rdata :=
  match a.rrset with
  | some r => r.items
  | none => []

/-- Modelled from the spec: python truthiness of an `Answer` goes through its
length; an absent rrset has length 0 and is falsy (spec §4.A). -/
def Answer.length (a : Answer) : ℕ := a.items.length

/-- Modelled from the spec: python truthiness of an `Answer`. -/
def Answer.toBool (a : Answer) : Bool := !(a.length == 0)

/-- Modelled from the spec: `Answer.__getitem__`; reading an element of an
absent rrset fails with a boundary (index) error (spec §4.A). -/
def Answer.getItem (a : Answer) (i : ℕ) : Except PyErr Rdata :=
  match a.rrset with
  | none => .error .indexError
  | some r =>
    match r.items.get? i with
    | some x => .ok x
    | none => .error .indexError

/-- Modelled from the spec: `Answer.__delitem__`; deleting an element of an
absent rrset fails with a boundary (index) error (spec §4.A). -/
def Answer.delItem (a : Answer) (i : ℕ) : Except PyErr Answer :=
  match a.rrset with
  | none => .error .indexError
  | some r =>
    if i < r.items.length then
      .ok { a with rrset := some { r with items := r.items.eraseIdx i } }
    else .error .indexError

/-- Cache key `(Name, RecordType, RecordClass)` (spec §3). -/
abbrev CacheKey := Name × RdataType × RdataClass

/-- Association-list lookup by key (first match). -/
def lookupKey (l : List (CacheKey × Answer)) (k : CacheKey) : Option Answer :=
  (l.find? (fun p => decide (p.1 = k))).map (·.2)

/-- Remove every binding of a key from an association list. -/
def eraseKey (l : List (CacheKey × Answer)) (k : CacheKey) :
    List (CacheKey × Answer) :=
  l.filter (fun p => decide (p.1 ≠ k))

/-- Modelled from the spec: `dns.resolver.Cache` (absent from `src/`),
spec §4.B: an unbounded TTL map with an amortized sweep.  `data` is the
key-to-answer table, `next_cleaning` the time of the next sweep. -/
structure Cache where
  data : List (CacheKey × Answer)
  cleaning_interval : ℚ
  next_cleaning : ℚ
deriving DecidableEq, Repr

/-- Modelled from the spec: a fresh `Cache` with the default five-minute
cleaning interval (spec §4.B). -/
def Cache.empty : Cache := { data := [], cleaning_interval := 300, next_cleaning := 300 }

/-- Modelled from the spec: the sweep (spec §4.B): on any `get` or `put`, if
`now ≥ next_cleaning`, discard expired entries and re-arm the timer. -/
def Cache.maybeClean (c : Cache) (now : ℚ) : Cache :=
  if c.next_cleaning ≤ now then
    { c with data := c.data.filter (fun p => decide (now < p.2.expiration)),
             next_cleaning := now + c.cleaning_interval }
  else c

/-- Modelled from the spec: `Cache.get` (spec §4.B): sweep, then return the
stored Answer, or remove it and return none once `now ≥ expiration_time`. -/
def Cache.get (c : Cache) (k : CacheKey) (now : ℚ) : Option Answer × Cache :=
  let c := c.maybeClean now
  match lookupKey c.data k with
  | none => (none, c)
  | some a =>
    if a.expiration ≤ now then (none, { c with data := eraseKey c.data k })
    else (some a, c)

/-- Modelled from the spec: `Cache.put` (spec §4.B): sweep, then replace any
prior value under the key. -/
def Cache.put (c : Cache) (k : CacheKey) (a : Answer) (now : ℚ) : Cache :=
  let c := c.maybeClean now
  { c with data := eraseKey c.data k ++ [(k, a)] }

/-- Modelled from the spec: `Cache.flush` (spec §4.B). -/
def Cache.flush (c : Cache) (k : Option CacheKey) : Cache :=
  match k with
  | some k => { c with data := eraseKey c.data k }
  | none => { c with data := [] }

/-- Modelled from the spec: `dns.resolver.LRUCache` (absent from `src/`),
spec §4.C: a bounded cache whose `entries` list keeps the most recently used
binding at the head. -/
structure LRUCache where
  max_size : ℕ
  entries : List (CacheKey × Answer)
deriving DecidableEq, Repr

/-- Modelled from the spec: a fresh `LRUCache` of the given bound. -/
def LRUCache.empty (max_size : ℕ) : LRUCache :=
  { max_size := max_size, entries := [] }

/-- Modelled from the spec: `LRUCache.get` (spec §4.C): absent or expired
entries yield none (expired ones are deleted); a hit is moved to the
most-recently-used position and returned. -/
def LRUCache.get (c : LRUCache) (k : CacheKey) (now : ℚ) :
    Option Answer × LRUCache :=
  match lookupKey c.entries k with
  | none => (none, c)
  | some a =>
    if a.expiration ≤ now then (none, { c with entries := eraseKey c.entries k })
    else (some a, { c with entries := (k, a) :: eraseKey c.entries k })

/-- Modelled from the spec: `LRUCache.put` (spec §4.C): overwrite or insert
at the most-recently-used position; if the size then exceeds `max_size`,
evict the least-recently-used entry (the tail of the recency order). -/
def LRUCache.put (c : LRUCache) (k : CacheKey) (a : Answer) : LRUCache :=
  { c with entries :=
      if c.max_size < ((k, a) :: eraseKey c.entries k).length then
        ((k, a) :: eraseKey c.entries k).dropLast
      else (k, a) :: eraseKey c.entries k }

/-- A configured nameserver entry.  Whether the text is an IPv4/IPv6 address
literal is decided in the driver by the external collaborator
`dns.inet.is_address`; the flag carries that judgement. -/
structure Nameserver where
  text : String
  is_address : Bool
deriving DecidableEq, Repr

/-- The slice of the resolver configuration the resolution core reads
(spec §4.D). -/
structure ResolverConfig where
  nameservers : List Nameserver
  port : ℕ
  search : List Name
  domain : Name
  ndots : ℕ
  retry_servfail : Bool
  use_search_by_default : Bool
deriving DecidableEq, Repr

/-- Modelled from the spec: `Resolver._get_qnames_to_try` (absent from
`src/`), spec §4.E, reconstructed against the repository's own tests
(`testSearchListsRelative`, `testSearchListsAbsolute` in
`tests/test_resolver.py` and `test_next_request_rel` in
`tests/test_resolution.py`), which pin the behaviour: an absolute input is
returned alone; for a relative input with at least `ndots` dots (label count
greater than `ndots`) the root-qualified input is tried first, and then
either the search-list expansions (when searching and the search list is
non-empty) or the single `input + domain` fallback follow. -/
def getQnamesToTry (cfg : ResolverConfig) (qname : Name) (search : Option Bool) :
    List Name :=
  let doSearch := search.getD cfg.use_search_by_default
  if qname.is_absolute then [qname]
  else
    (if cfg.ndots < qname.len then [qname.concatenate nameRoot] else []) ++
    (if doSearch && !cfg.search.isEmpty then
       cfg.search.map (fun sfx => qname.concatenate sfx)
     else [qname.concatenate cfg.domain])

/-- Spec-literal planner, following the words of spec §4.E rules 1-4 exactly,
for comparison with `getQnamesToTry`: absolute names are returned alone;
otherwise a name with at least `ndots` dots, or an unsearched name, yields
the single fallback `input + domain`; otherwise the search expansions. -/
def getQnamesToTrySpecLiteral (cfg : ResolverConfig) (qname : Name)
    (search : Option Bool) : List Name :=
  let doSearch := search.getD cfg.use_search_by_default
  if qname.is_absolute then [qname]
  else if cfg.ndots ≤ qname.labels.length - 1 || !doSearch then
    [qname.concatenate cfg.domain]
  else cfg.search.map (fun sfx => qname.concatenate sfx)

/-- Modelled from the spec: the error classification consumed by
`query_result` (spec §4.G, §7): timeout, truncation, protocol/format error,
end-of-stream, not-implemented, and the catch-all other. -/
inductive QueryError where
  | timeout
  | truncated
  | formError
  | eofError
  | notImplemented
  | other
deriving DecidableEq, Repr

/-- Modelled from the spec: `dns.resolver._Resolution` (absent from `src/`),
spec §3 "Resolution state": the live conversation of one `resolve` call. -/
structure Resolution where
  qname : Name
  rdtype : RdataType
  rdclass : RdataClass
  raise_on_no_answer : Bool
  retry_servfail : Bool
  port : ℕ
  qnames_to_try : List Name
  nxdomain_responses : List (Name × Message)
  nameservers : List Nameserver
  current_nameservers : List Nameserver
  round : ℕ
  nameserver : Option Nameserver
  retry_with_tcp : Bool
  tcp_attempt : Bool
deriving DecidableEq, Repr

/-- Modelled from the spec: construction of a `_Resolution` at the start of
`resolve` (spec §3 "Lifecycle" and §4.G outer step 1): the planner runs once,
the nameserver list is a copy of the configuration's, the rotation and the
sticky flags start clear. -/
def Resolution.make (cfg : ResolverConfig) (qname : Name) (rdtype : RdataType)
    (rdclass : RdataClass) (tcp : Bool) (raise_on_no_answer : Bool)
    (search : Option Bool) : Resolution :=
  { qname := qname, rdtype := rdtype, rdclass := rdclass,
    raise_on_no_answer := raise_on_no_answer,
    retry_servfail := cfg.retry_servfail, port := cfg.port,
    qnames_to_try := getQnamesToTry cfg qname search,
    nxdomain_responses := [], nameservers := cfg.nameservers,
    current_nameservers := [], round := 0, nameserver := none,
    retry_with_tcp := false, tcp_attempt := tcp }

/-- Modelled from the spec: the backoff emitted when the rotation starts its
next round, spec §4.F: `0` before the first wrap, `0.1 * 2 ^ (k - 1)` seconds
after the k-th full wrap. -/
def backoffOf (completedRounds : ℕ) : ℚ :=
  if completedRounds = 0 then 0 else (1 / 10) * 2 ^ (completedRounds - 1)

/-- Modelled from the spec: `_Resolution.next_nameserver` (spec §4.F).  When
`retry_with_tcp` is set, the previous nameserver is returned again with
stream transport and the flag cleared.  Otherwise the rotation pops the next
server of the current round, refilling from `nameservers` (and emitting the
wrap backoff) when the round is exhausted, and failing with `NoNameservers`
when no servers remain. -/
def Resolution.next_nameserver (s : Resolution) :
    Except ResolverError ((Nameserver × ℕ × Bool × ℚ) × Resolution) :=
  if s.retry_with_tcp then
    match s.nameserver with
    | some ns => .ok ((ns, s.port, true, 0), { s with retry_with_tcp := false })
    | none => .error .assertionFailed
  else
    match s.current_nameservers with
    | ns :: rest =>
      .ok ((ns, s.port, false, 0),
           { s with current_nameservers := rest, nameserver := some ns })
    | [] =>
      match s.nameservers with
      | [] => .error .noNameservers
      | ns :: rest =>
        .ok ((ns, s.port, false, backoffOf s.round),
             { s with current_nameservers := rest, round := s.round + 1,
                      nameserver := some ns })

/-- Remove the nameserver of the last attempt from the rotation for this
resolve (spec §3: servers that produce fatal-for-this-server errors are
removed; spec §4.F `remove_nameserver`). -/
def Resolution.removeCurrent (s : Resolution) : Resolution :=
  match s.nameserver with
  | some ns => { s with nameservers := s.nameservers.erase ns }
  | none => s

/-- Modelled from the spec: the error rows of the `query_result` classifier
(spec §4.G): a timeout keeps the server; a truncation on a datagram attempt
sets the sticky `retry_with_tcp` flag and keeps the server; a format error,
end-of-stream, truncation on a stream attempt, not-implemented, or any other
error removes the server. -/
def Resolution.query_error (s : Resolution) (e : QueryError) : Resolution :=
  match e with
  | .timeout => s
  | .truncated =>
    if s.tcp_attempt then s.removeCurrent
    else { s with retry_with_tcp := true }
  | _ => s.removeCurrent

/-- Record a per-qname NXDOMAIN response (spec §3 `nxdomain_responses`),
keeping the first-recorded order of qnames. -/
def putResponse (l : List (Name × Message)) (q : Name) (m : Message) :
    List (Name × Message) :=
  if l.any (fun p => decide (p.1 = q)) then
    l.map (fun p => if p.1 = q then (q, m) else p)
  else l ++ [(q, m)]

/-- Modelled from the spec: `_Resolution.query_result` (spec §4.G classifier
table), the classification of one attempt's outcome into
`(answer, done)` plus the state and cache updates.  Error outcomes go through
`query_error`; response outcomes are classified by rcode in the table's
order. -/
def Resolution.query_result (s : Resolution) (cache : Cache) (now : ℚ)
    (response : Option Message) (err : Option QueryError) :
    Except ResolverError (Option Answer × Bool × Resolution × Cache) :=
  match err with
  | some e => .ok (none, false, s.query_error e, cache)
  | none =>
    match response with
    | none => .ok (none, false, s, cache)
    | some r =>
      if r.rcode = rcodeYXDOMAIN then .error .yxdomain
      else if r.rcode = rcodeSERVFAIL then
        if s.retry_servfail then .ok (none, false, s, cache)
        else .ok (none, false, s.removeCurrent, cache)
      else if r.rcode = rcodeNXDOMAIN then
        let ans := mkAnswer s.qname rdtypeANY s.rdclass r now
        .ok (none, true,
             { s with nxdomain_responses := putResponse s.nxdomain_responses s.qname r },
             cache.put (s.qname, rdtypeANY, s.rdclass) ans now)
      else if r.rcode = rcodeNOERROR then
        let ans := mkAnswer s.qname s.rdtype s.rdclass r now
        match ans.rrset with
        | some _ =>
          .ok (some ans, true, s, cache.put (s.qname, s.rdtype, s.rdclass) ans now)
        | none =>
          if s.raise_on_no_answer then .error .noAnswer
          else .ok (some ans, true, s,
                    cache.put (s.qname, rdtypeANY, s.rdclass) ans now)
      else .ok (none, false, s.removeCurrent, cache)

/-- Modelled from the spec: the recursion of `_Resolution.next_request` over
the remaining qnames (spec §4.G outer steps 2-4).  Exhaustion fails with an
`NXDOMAIN` carrying the accumulated per-qname responses; an exact-type cache
hit is returned (or fails `NoAnswer` when it has no rrset and the caller asked
to raise); an `ANY`-shadow hit with rcode NXDOMAIN records the response for
the qname and advances to the next qname without issuing a query; an
`ANY`-shadow hit with NOERROR is treated as `NoAnswer`; a miss builds the
query for this qname. -/
def nextRequestAux (now : ℚ) :
    List Name → Resolution → Cache →
    Except ResolverError ((Option Question × Option Answer) × Resolution × Cache)
  | [], s, _cache =>
    .error (.nxdomain (s.nxdomain_responses.map Prod.fst) s.nxdomain_responses)
  | q :: rest, s, cache =>
    let s := { s with qname := q, qnames_to_try := rest }
    match cache.get (q, s.rdtype, s.rdclass) now with
    | (some a, cache) =>
      if a.rrset.isSome then .ok ((none, some a), s, cache)
      else if s.raise_on_no_answer then .error .noAnswer
      else .ok ((none, some a), s, cache)
    | (none, cache) =>
      match cache.get (q, rdtypeANY, s.rdclass) now with
      | (some a, cache) =>
        if a.response.rcode = rcodeNXDOMAIN then
          nextRequestAux now rest
            { s with nxdomain_responses :=
                putResponse s.nxdomain_responses q a.response } cache
        else if s.raise_on_no_answer then .error .noAnswer
        else .ok ((none, some a), s, cache)
      | (none, cache) =>
        .ok ((some ⟨q, s.rdtype, s.rdclass⟩, none), s, cache)

/-- Modelled from the spec: `_Resolution.next_request` (spec §4.G outer
loop). -/
def Resolution.next_request (s : Resolution) (cache : Cache) (now : ℚ) :
    Except ResolverError ((Option Question × Option Answer) × Resolution × Cache) :=
  nextRequestAux now s.qnames_to_try s cache

/-- Modelled from the spec: the mergeable payload of a raised `NXDOMAIN`
(spec §4.H): the ordered qname list and the per-qname response map.  The
response payload type is opaque to the merge. -/
structure NXDomainInfo (R : Type) where
  qnames : List Name
  responses : List (Name × R)
deriving DecidableEq, Repr

/-- Append, in order, those elements of the second list not already present
in the accumulated list: the de-duplicating union step of the `NXDOMAIN`
merge. -/
def unionAppend (acc : List Name) : List Name → List Name
  | [] => []
  | q :: l => if q ∈ acc then unionAppend acc l else q :: unionAppend (acc ++ [q]) l

/-- Lookup in a response map (first binding wins). -/
def respLookup (l : List (Name × R)) (k : Name) : Option R :=
  (l.find? (fun p => decide (p.1 = k))).map (·.2)

/-- Modelled from the spec: `NXDOMAIN.__add__` (spec §4.H): `a + b` unions
the qname lists preserving order and de-duplicating, and overlays the
response maps with `b`'s entries winning. -/
def NXDomainInfo.add (a b : NXDomainInfo R) : NXDomainInfo R :=
  { qnames := a.qnames ++ unionAppend a.qnames b.qnames,
    responses := b.responses ++ a.responses }

/-- Outcome of one transport attempt as surfaced to the driver: a reply
message, or a raised exception (timeout, truncation, protocol error,
end-of-stream, ...). -/
inductive AttemptResult where
  | ok (r : Message)
  | err (e : QueryError)
deriving DecidableEq, Repr

/-- The external Transport capability (spec §6), as an oracle giving the
outcome of the n-th transport invocation of the resolve. -/
abbrev Transport := ℕ → AttemptResult

/-- Observable interactions of the driver: how many times the Transport was
invoked, and the sequence of backoff sleeps performed. -/
structure Trace where
  calls : ℕ
  sleeps : List ℚ
deriving DecidableEq, Repr

/-- Outcome of the driver's inner (per-attempt) loop. -/
inductive InnerOutcome where
  | answer (a : Answer)
  | advance
  | fail (e : ResolverError)
  | fuelOut
deriving DecidableEq, Repr

/-- The inner per-attempt loop of `Resolver.resolve`, translated from
`src/dns/trio/resolver.py` lines 93-126: ask `next_nameserver`; on a positive
backoff bump the round counter, failing `TooManyAttempts` at five rounds
before sleeping or querying, else sleep; issue the query through the
Transport for an address nameserver and raise not-implemented otherwise; feed
the outcome to `query_result`, catching any exception it raises and feeding
that back as an error, exactly as the driver's `except Exception` clause
does.  `fuel` bounds the iteration count of this shallow embedding. -/
def innerLoop (T : Transport) :
    ℕ → Resolution → ℕ → Cache → ℚ → Trace →
    InnerOutcome × Resolution × Cache × Trace
  | 0, s, _, cache, _, tr => (.fuelOut, s, cache, tr)
  | fuel + 1, s, loops, cache, now, tr =>
    match s.next_nameserver with
    | .error e => (.fail e, s, cache, tr)
    | .ok ((ns, _p, _tcp, backoff), s1) =>
      let attempt : ℕ → Trace → InnerOutcome × Resolution × Cache × Trace :=
        fun loops tr =>
          let probe : AttemptResult × Trace :=
            if ns.is_address then (T tr.calls, { tr with calls := tr.calls + 1 })
            else (.err .notImplemented, tr)
          match probe with
          | (.ok m, tr2) =>
            match s1.query_result cache now (some m) none with
            | .ok (some a, _done, s2, c2) => (.answer a, s2, c2, tr2)
            | .ok (none, true, s2, c2) => (.advance, s2, c2, tr2)
            | .ok (none, false, s2, c2) => innerLoop T fuel s2 loops c2 now tr2
            | .error _e => innerLoop T fuel (s1.query_error .other) loops cache now tr2
          | (.err e, tr2) => innerLoop T fuel (s1.query_error e) loops cache now tr2
      if backoff = 0 then attempt loops tr
      else if 4 ≤ loops then (.fail .tooManyAttempts, s1, cache, tr)
      else attempt (loops + 1) { tr with sleeps := tr.sleeps ++ [backoff] }

/-- Outcome of a whole `resolve` call. -/
inductive Outcome where
  | answer (a : Answer)
  | fail (e : ResolverError)
  | fuelOut
deriving DecidableEq, Repr

/-- The outer per-qname loop of `Resolver.resolve`, translated from
`src/dns/trio/resolver.py` lines 88-126: `next_request` until it yields a
cache answer or a request; a request enters the inner loop with the round
counter at one. -/
def resolveLoop (T : Transport) (innerFuel : ℕ) :
    ℕ → Resolution → Cache → ℚ → Trace → Outcome × Cache × Trace
  | 0, _, cache, _, tr => (.fuelOut, cache, tr)
  | fuel + 1, s, cache, now, tr =>
    match s.next_request cache now with
    | .error e => (.fail e, cache, tr)
    | .ok ((_req, some a), _s1, c1) => (.answer a, c1, tr)
    | .ok ((_req, none), s1, c1) =>
      match innerLoop T innerFuel s1 1 c1 now tr with
      | (.answer a, _, c2, tr2) => (.answer a, c2, tr2)
      | (.advance, s2, c2, tr2) => resolveLoop T innerFuel fuel s2 c2 now tr2
      | (.fail e, _, c2, tr2) => (.fail e, c2, tr2)
      | (.fuelOut, _, c2, tr2) => (.fuelOut, c2, tr2)

/-- Record the results of `c` successive `next_nameserver` calls: the
`(nameserver, backoff)` pairs returned, and the final state.  A failing call
stops the recording. -/
def runCalls : Resolution → ℕ → List (Nameserver × ℚ) × Resolution
  | s, 0 => ([], s)
  | s, c + 1 =>
    match s.next_nameserver with
    | .error _ => ([], s)
    | .ok ((ns, _p, _tcp, b), s1) =>
      let r := runCalls s1 c
      ((ns, b) :: r.1, r.2)

/-- One cache operation of a client session, for stating properties over
arbitrary operation sequences. -/
inductive CacheOp where
  | put (k : CacheKey) (a : Answer)
  | get (k : CacheKey) (t : ℚ)
deriving DecidableEq, Repr

/-- Apply one operation to an `LRUCache` (the `get` result is discarded). -/
def LRUCache.applyOp (c : LRUCache) : CacheOp → LRUCache
  | .put k a => c.put k a
  | .get k t => (c.get k t).2

/-- Apply a sequence of operations to an `LRUCache`. -/
def LRUCache.applyOps (c : LRUCache) (ops : List CacheOp) : LRUCache :=
  ops.foldl LRUCache.applyOp c

/-- The keys of an association list are pairwise distinct. -/
def KeysNodup (l : List (CacheKey × Answer)) : Prop :=
  (l.map Prod.fst).Nodup

section Fixtures

/-! Concrete data mirroring the repository's unit tests, used by the witness
and counterexample theorems. -/

/-- Nameserver `10.0.0.1` of `tests/test_resolution.py` `setUp`. -/
def nsA : Nameserver := ⟨"10.0.0.1", true⟩

/-- Nameserver `10.0.0.2` of `tests/test_resolution.py` `setUp`. -/
def nsB : Nameserver := ⟨"10.0.0.2", true⟩

/-- A configured nameserver that is not an address literal. -/
def nsName : Nameserver := ⟨"dns.google", false⟩

/-- The resolver domain `example` of `tests/test_resolution.py` `setUp`
(`dns.name.from_text` yields an absolute name). -/
def exampleDomain : Name := ⟨["example", ""]⟩

/-- The relative query name `www.dnspython.org` of `test_next_request_rel`. -/
def wwwRel : Name := ⟨["www", "dnspython", "org"]⟩

/-- The absolute query name `www.dnspython.org.`. -/
def wwwAbs : Name := ⟨["www", "dnspython", "org", ""]⟩

/-- The resolver configuration of `tests/test_resolution.py` `setUp`:
nameservers `10.0.0.1`, `10.0.0.2`, domain `example`, empty search list and
the documented defaults. -/
def testCfg : ResolverConfig :=
  { nameservers := [nsA, nsB], port := 53, search := [], domain := exampleDomain,
    ndots := 1, retry_servfail := false, use_search_by_default := false }

/-- The `_Resolution` of `tests/test_resolution.py` `setUp` after its
`next_request`. -/
def resnAB : Resolution :=
  Resolution.make testCfg wwwAbs rdtypeA rdclassIN false true none

/-- A transport that times out on every attempt. -/
def transportTimeout : Transport := fun _ => .err .timeout

/-- The positive response of `make_address_response`: an A record set of TTL
300 for `www.dnspython.org.`. -/
def addrMsg : Message :=
  ⟨1, rcodeNOERROR, [⟨wwwAbs, rdtypeA, rdclassIN⟩],
   [⟨wwwAbs, rdclassIN, rdtypeA, 300, [Rdata.address "10.0.0.1"]⟩], []⟩

/-- The negative NXDOMAIN response of `make_negative_response`: no answer
records, an SOA of minimum 300 in the authority section, rcode NXDOMAIN. -/
def nxMsg : Message :=
  ⟨1, rcodeNXDOMAIN, [⟨wwwAbs, rdtypeA, rdclassIN⟩], [],
   [⟨wwwAbs, rdclassIN, rdtypeSOA, 300, [Rdata.soa 300]⟩]⟩

/-- The `message_text` fixture of `tests/test_resolver.py`: an A record for
`example.`, no authority records. -/
def exampleMsg : Message :=
  ⟨1234, rcodeNOERROR, [⟨⟨["example", ""]⟩, rdtypeA, rdclassIN⟩],
   [⟨⟨["example", ""]⟩, rdclassIN, rdtypeA, 1, [Rdata.address "10.0.0.1"]⟩], []⟩

/-- An answer stored by the witness cache scenarios: the positive answer an
`Answer(example., A, IN, message)` built at time 100 carries (TTL 1, so
expiration 101), written as a literal. -/
def cachedAnswer : Answer :=
  { qname := ⟨["example", ""]⟩, rdtype := rdtypeA, rdclass := rdclassIN,
    response := exampleMsg, canonical_name := ⟨["example", ""]⟩,
    rrset := some ⟨⟨["example", ""]⟩, rdclassIN, rdtypeA, 1, [Rdata.address "10.0.0.1"]⟩,
    expiration := 101 }

/-- The NXDOMAIN shadow answer used by the `next_request` witness, as the
code builds it: rdtype `ANY`, absent rrset, the negative response, expiration
at time 100 plus the SOA minimum 300, written as a literal. -/
def shadowAnswer : Answer :=
  { qname := wwwAbs, rdtype := rdtypeANY, rdclass := rdclassIN,
    response := nxMsg, canonical_name := wwwAbs, rrset := none,
    expiration := 400 }

/-- The `setUp` resolution just after its first `next_nameserver` call
returned `10.0.0.1`. -/
def resnAtA : Resolution :=
  { resnAB with current_nameservers := [nsB], round := 1, nameserver := some nsA }

/-- A REFUSED response to the `www.dnspython.org.` A query. -/
def refusedMsg : Message := { addrMsg with rcode := rcodeREFUSED }

/-- A SERVFAIL response to the `www.dnspython.org.` A query. -/
def servfailMsg : Message := { addrMsg with rcode := rcodeSERVFAIL }

/-- A cache holding the NXDOMAIN shadow answer under
`(www.dnspython.org., ANY, IN)`, with the sweep not yet due. -/
def shadowCache : Cache :=
  { data := [((wwwAbs, rdtypeANY, rdclassIN), shadowAnswer)],
    cleaning_interval := 300, next_cleaning := 500 }

/-- The first NXDOMAIN merge operand of `test_nxdomain_merge` (response
payloads are opaque strings there). -/
def nxInfo1 : NXDomainInfo String :=
  ⟨[⟨["a", "b", ""]⟩, ⟨["a", "b", "d", ""]⟩],
   [(⟨["a", "b", ""]⟩, "r1.1"), (⟨["a", "b", ""]⟩, "r1.2"),
    (⟨["a", "b", "d", ""]⟩, "r1.4")]⟩

/-- The second NXDOMAIN merge operand of `test_nxdomain_merge`. -/
def nxInfo2 : NXDomainInfo String :=
  ⟨[⟨["a", "b", ""]⟩, ⟨["a", "b", "c", ""]⟩],
   [(⟨["a", "b", ""]⟩, "r2.2"), (⟨["a", "b", "c", ""]⟩, "r2.3")]⟩

/-- Cache key `examplei.` of the LRU tests. -/
def lruKey (i : ℕ) : CacheKey := (⟨["example" ++ toString i, ""]⟩, rdtypeA, rdclassIN)

/-- The `FakeAnswer` of the LRU tests: only its expiration matters. -/
def fakeAnswer (i : ℕ) : Answer :=
  { qname := ⟨["example" ++ toString i, ""]⟩, rdtype := rdtypeA,
    rdclass := rdclassIN, response := ⟨0, 0, [], [], []⟩,
    canonical_name := ⟨[]⟩, rrset := none, expiration := 2000 }

/-- The LRU cache of `testLRUDoesLRU` after the four puts and the touch of
`example0.`: recency order `example0., example3., example2., example1.`. -/
def lruTouched : LRUCache :=
  (LRUCache.empty 4).applyOps
    [.put (lruKey 0) (fakeAnswer 0), .put (lruKey 1) (fakeAnswer 1),
     .put (lruKey 2) (fakeAnswer 2), .put (lruKey 3) (fakeAnswer 3),
     .get (lruKey 0) 1000]

/-- The `setUp` resolution at the end of its first rotation round: the next
`next_nameserver` call wraps and emits the first backoff. -/
def resnWrapped : Resolution :=
  { resnAB with current_nameservers := [], round := 1, nameserver := some nsB }

/-- The state `next_nameserver` leaves after the wrapping call: `10.0.0.1`
returned again, round counter 2. -/
def resnWrapped2 : Resolution :=
  { resnAB with current_nameservers := [nsB], round := 2, nameserver := some nsA }

/-- A resolution whose configured nameservers are both non-address strings. -/
def resnNonAddr : Resolution :=
  Resolution.make { testCfg with nameservers := [nsName, ⟨"doh.example", false⟩] }
    wwwAbs rdtypeA rdclassIN false true none

end Fixtures

/-! ## Helper lemmas on association lists -/

theorem lookupKey_eq_none_iff (l : List (CacheKey × Answer)) (k : CacheKey) :
    lookupKey l k = none ↔ ∀ p ∈ l, p.1 ≠ k := by
  simp [lookupKey, List.find?_eq_none]

theorem lookupKey_eraseKey (l : List (CacheKey × Answer)) (k : CacheKey) :
    lookupKey (eraseKey l k) k = none := by
  rw [lookupKey_eq_none_iff]
  intro p hp
  have := List.of_mem_filter hp
  simpa using this

theorem lookupKey_append (l₁ l₂ : List (CacheKey × Answer)) (k : CacheKey) :
    lookupKey (l₁ ++ l₂) k = (lookupKey l₁ k).or (lookupKey l₂ k) := by
  simp only [lookupKey, List.find?_append]
  cases List.find? (fun p => decide (p.1 = k)) l₁ <;> simp

theorem lookupKey_cons_self (l : List (CacheKey × Answer)) (k : CacheKey)
    (a : Answer) : lookupKey ((k, a) :: l) k = some a := by
  simp [lookupKey, List.find?_cons]

theorem lookupKey_filter_of_none (l : List (CacheKey × Answer)) (k : CacheKey)
    (p : CacheKey × Answer → Bool) (h : lookupKey l k = none) :
    lookupKey (l.filter p) k = none := by
  rw [lookupKey_eq_none_iff] at h ⊢
  intro q hq
  exact h q (List.Sublist.mem hq (List.filter_sublist l))

theorem eraseKey_of_none (l : List (CacheKey × Answer)) (k : CacheKey)
    (h : lookupKey l k = none) : eraseKey l k = l := by
  rw [lookupKey_eq_none_iff] at h
  exact List.filter_eq_self.mpr (fun p hp => by simpa using h p hp)

/-- The key erased from an association list with distinct keys loses exactly
one entry when present. -/
theorem length_eraseKey_of_mem (l : List (CacheKey × Answer)) (k : CacheKey)
    (a : Answer) (hn : KeysNodup l) (h : lookupKey l k = some a) :
    (eraseKey l k).length + 1 = l.length := by
  induction l with
  | nil => simp [lookupKey] at h
  | cons x t ih =>
    unfold KeysNodup at hn
    rw [List.map_cons, List.nodup_cons] at hn
    by_cases hx : x.1 = k
    · have ht : lookupKey t k = none := by
        rw [lookupKey_eq_none_iff]
        intro p hp hpk
        exact hn.1 (hx ▸ hpk ▸ List.mem_map_of_mem Prod.fst hp)
      have het : eraseKey t k = t := eraseKey_of_none t k ht
      have hxt : eraseKey (x :: t) k = t := by
        simp only [eraseKey, List.filter_cons, hx] at het ⊢
        simpa using het
      rw [hxt]
      simp
    · have h' : lookupKey t k = some a := by
        simpa [lookupKey, List.find?_cons, hx] using h
      have ihh := ih hn.2 h'
      have hxt : eraseKey (x :: t) k = x :: eraseKey t k := by
        simp [eraseKey, List.filter_cons, hx]
      rw [hxt]
      simp only [List.length_cons]
      omega

/-! ## Claim C9: Answer with absent rrset -/

/-- C9: an Answer constructed with `raise_on_no_answer` false from a message
containing no record set matching the query has an absent rrset, yields no
records when iterated, is falsy, and fails element read and delete at index 0
with an index error. -/
theorem claimC9_empty_answer (qname : Name) (rdtype : RdataType)
    (rdclass : RdataClass) (msg : Message) (now : ℚ)
    (h : findRRset msg.answer (canonicalName msg qname rdclass) rdclass rdtype = none) :
    Answer.make qname rdtype rdclass msg false now =
      .ok (mkAnswer qname rdtype rdclass msg now) ∧
    (mkAnswer qname rdtype rdclass msg now).rrset = none ∧
    (mkAnswer qname rdtype rdclass msg now).items = [] ∧
    (mkAnswer qname rdtype rdclass msg now).toBool = false ∧
    (mkAnswer qname rdtype rdclass msg now).getItem 0 = .error .indexError ∧
    (mkAnswer qname rdtype rdclass msg now).delItem 0 = .error .indexError := by
  have hr : (mkAnswer qname rdtype rdclass msg now).rrset = none := by
    simp [mkAnswer, h]
  refine ⟨?_, hr, ?_, ?_, ?_, ?_⟩
  · simp [Answer.make, hr]
  · simp [Answer.items, hr]
  · simp [Answer.toBool, Answer.length, Answer.items, hr]
  · simp [Answer.getItem, hr]
  · simp [Answer.delItem, hr]

/-- Witness for C9 at the `testIndexErrorOnEmptyRRsetAccess` fixture: the
`message_text` message holds only an A record for `example.`, so an MX query
against it yields an Answer with absent rrset behaving as claimed. -/
theorem claimC9_empty_answer_witness :
    Answer.make ⟨["example", ""]⟩ rdtypeMX rdclassIN exampleMsg false 100 =
      .ok (mkAnswer ⟨["example", ""]⟩ rdtypeMX rdclassIN exampleMsg 100) ∧
    (mkAnswer ⟨["example", ""]⟩ rdtypeMX rdclassIN exampleMsg 100).rrset = none ∧
    (mkAnswer ⟨["example", ""]⟩ rdtypeMX rdclassIN exampleMsg 100).items = [] ∧
    (mkAnswer ⟨["example", ""]⟩ rdtypeMX rdclassIN exampleMsg 100).toBool = false ∧
    (mkAnswer ⟨["example", ""]⟩ rdtypeMX rdclassIN exampleMsg 100).getItem 0 =
      .error .indexError ∧
    (mkAnswer ⟨["example", ""]⟩ rdtypeMX rdclassIN exampleMsg 100).delItem 0 =
      .error .indexError :=
  claimC9_empty_answer ⟨["example", ""]⟩ rdtypeMX rdclassIN exampleMsg 100 (by decide)

/-! ## Claim C6: TTL honoured by both caches -/

/-- C6: for both the unbounded `Cache` and the `LRUCache`, an Answer stored
by `put` is returned by a `get` performed before its expiration time, while a
`get` at or after the expiration time returns none and deletes the entry. -/
theorem claimC6_cache_ttl (c : Cache) (lc : LRUCache) (k : CacheKey)
    (a : Answer) (tp t : ℚ) (hm : 1 ≤ lc.max_size) :
    (a.expiration ≤ t →
       ((c.put k a tp).get k t).1 = none ∧
       lookupKey ((c.put k a tp).get k t).2.data k = none) ∧
    (t < a.expiration → ((c.put k a tp).get k t).1 = some a) ∧
    (a.expiration ≤ t →
       ((lc.put k a).get k t).1 = none ∧
       lookupKey ((lc.put k a).get k t).2.entries k = none) ∧
    (t < a.expiration → ((lc.put k a).get k t).1 = some a) := by
  have hdnone : lookupKey (eraseKey (c.maybeClean tp).data k) k = none :=
    lookupKey_eraseKey _ k
  have hput : (c.put k a tp).data = eraseKey (c.maybeClean tp).data k ++ [(k, a)] := rfl
  -- the LRU put keeps the fresh binding at the head in both the evicting and
  -- the non-evicting case
  obtain ⟨rest, hrest, hrk⟩ :
      ∃ rest, (lc.put k a).entries = (k, a) :: rest ∧
        lookupKey rest k = none := by
    by_cases hsz : lc.max_size < (eraseKey lc.entries k).length + 1
    · have hent : (lc.put k a).entries = ((k, a) :: eraseKey lc.entries k).dropLast := by
        simp [LRUCache.put, hsz]
      rcases he : eraseKey lc.entries k with _ | ⟨x, xs⟩
      · rw [he] at hsz
        simp at hsz
        omega
      · rw [he] at hent
        refine ⟨(x :: xs).dropLast, hent, ?_⟩
        rw [lookupKey_eq_none_iff]
        intro p hp
        have hp' : p ∈ eraseKey lc.entries k := by
          rw [he]
          exact List.Sublist.mem hp (List.dropLast_sublist _)
        have := List.of_mem_filter hp'
        simpa using this
    · refine ⟨eraseKey lc.entries k, ?_, lookupKey_eraseKey _ k⟩
      simp [LRUCache.put, hsz]
  constructor
  · -- Cache, expired
    intro he
    have hne : ¬ t < a.expiration := not_lt.mpr he
    by_cases hcl : (c.put k a tp).next_cleaning ≤ t
    · have hdata : ((c.put k a tp).maybeClean t).data =
          (eraseKey (c.maybeClean tp).data k).filter
            (fun p => decide (t < p.2.expiration)) := by
        simp [Cache.maybeClean, hcl, hput, List.filter_append, hne]
      have hlk : lookupKey ((c.put k a tp).maybeClean t).data k = none := by
        rw [hdata]
        exact lookupKey_filter_of_none _ k _ hdnone
      constructor <;> simp [Cache.get, hlk]
    · have hdata : ((c.put k a tp).maybeClean t) = c.put k a tp := by
        simp [Cache.maybeClean, hcl]
      have hlk : lookupKey ((c.put k a tp).maybeClean t).data k = some a := by
        rw [hdata, hput, lookupKey_append, hdnone]
        simp [lookupKey_cons_self]
      constructor
      · simp [Cache.get, hlk, he]
      · simp [Cache.get, hlk, he, lookupKey_eraseKey]
  refine ⟨?_, ?_, ?_⟩
  · -- Cache, live
    intro hl
    have hne : ¬ a.expiration ≤ t := not_le.mpr hl
    by_cases hcl : (c.put k a tp).next_cleaning ≤ t
    · have hdata : ((c.put k a tp).maybeClean t).data =
          (eraseKey (c.maybeClean tp).data k).filter
            (fun p => decide (t < p.2.expiration)) ++ [(k, a)] := by
        simp [Cache.maybeClean, hcl, hput, List.filter_append, hl]
      have hlk : lookupKey ((c.put k a tp).maybeClean t).data k = some a := by
        rw [hdata, lookupKey_append, lookupKey_filter_of_none _ k _ hdnone]
        simp [lookupKey_cons_self]
      simp [Cache.get, hlk, hne]
    · have hdata : ((c.put k a tp).maybeClean t) = c.put k a tp := by
        simp [Cache.maybeClean, hcl]
      have hlk : lookupKey ((c.put k a tp).maybeClean t).data k = some a := by
        rw [hdata, hput, lookupKey_append, hdnone]
        simp [lookupKey_cons_self]
      simp [Cache.get, hlk, hne]
  · -- LRU, expired
    intro he
    have hlk : lookupKey (lc.put k a).entries k = some a := by
      rw [hrest]
      exact lookupKey_cons_self rest k a
    constructor
    · simp [LRUCache.get, hlk, he]
    · simp [LRUCache.get, hlk, he, lookupKey_eraseKey]
  · -- LRU, live
    intro hl
    have hne : ¬ a.expiration ≤ t := not_le.mpr hl
    have hlk : lookupKey (lc.put k a).entries k = some a := by
      rw [hrest]
      exact lookupKey_cons_self rest k a
    simp [LRUCache.get, hlk, hne]

/-- Witness for C6: an empty `Cache` and an empty four-entry-bound `LRUCache`
holding `cachedAnswer` (expiration 101) behave as claimed at times 90
(before expiration) and 200 (after). -/
theorem claimC6_cache_ttl_witness :
    ((Cache.empty.put (⟨["example", ""]⟩, rdtypeA, rdclassIN) cachedAnswer 100).get
        (⟨["example", ""]⟩, rdtypeA, rdclassIN) 200).1 = none ∧
    ((Cache.empty.put (⟨["example", ""]⟩, rdtypeA, rdclassIN) cachedAnswer 100).get
        (⟨["example", ""]⟩, rdtypeA, rdclassIN) 90).1 = some cachedAnswer ∧
    (((LRUCache.empty 4).put (⟨["example", ""]⟩, rdtypeA, rdclassIN) cachedAnswer).get
        (⟨["example", ""]⟩, rdtypeA, rdclassIN) 200).1 = none ∧
    (((LRUCache.empty 4).put (⟨["example", ""]⟩, rdtypeA, rdclassIN) cachedAnswer).get
        (⟨["example", ""]⟩, rdtypeA, rdclassIN) 90).1 = some cachedAnswer := by
  have hexp : cachedAnswer.expiration = 101 := rfl
  have h1 := claimC6_cache_ttl Cache.empty (LRUCache.empty 4)
    (⟨["example", ""]⟩, rdtypeA, rdclassIN) cachedAnswer 100 200 (by decide)
  have h2 := claimC6_cache_ttl Cache.empty (LRUCache.empty 4)
    (⟨["example", ""]⟩, rdtypeA, rdclassIN) cachedAnswer 100 90 (by decide)
  refine ⟨(h1.1 ?_).1, h2.2.1 ?_, (h1.2.2.1 ?_).1, h2.2.2.2 ?_⟩ <;> rw [hexp] <;> norm_num

/-! ## Claim C8: NXDOMAIN merge -/

theorem mem_unionAppend (l : List Name) (acc : List Name) (q : Name) :
    q ∈ unionAppend acc l ↔ q ∈ l ∧ q ∉ acc := by
  induction l generalizing acc with
  | nil => simp [unionAppend]
  | cons x t ih =>
    by_cases hx : x ∈ acc
    · rw [unionAppend, if_pos hx, ih]
      constructor
      · rintro ⟨hq, hn⟩
        exact ⟨List.mem_cons_of_mem _ hq, hn⟩
      · rintro ⟨hq, hn⟩
        rcases List.mem_cons.mp hq with rfl | h'
        · exact absurd hx hn
        · exact ⟨h', hn⟩
    · rw [unionAppend, if_neg hx]
      constructor
      · intro h
        rcases List.mem_cons.mp h with rfl | h'
        · exact ⟨List.mem_cons_self _ _, hx⟩
        · have hm := (ih (acc ++ [x])).mp h'
          exact ⟨List.mem_cons_of_mem _ hm.1,
                 fun hacc => hm.2 (List.mem_append_left _ hacc)⟩
      · rintro ⟨hq, hn⟩
        rcases List.mem_cons.mp hq with rfl | h'
        · exact List.mem_cons_self _ _
        · by_cases hqx : q = x
          · subst hqx
            exact List.mem_cons_self _ _
          · exact List.mem_cons_of_mem _
              ((ih (acc ++ [x])).mpr ⟨h', by simp [hn, hqx]⟩)

theorem sublist_unionAppend (l : List Name) (acc : List Name) :
    List.Sublist (unionAppend acc l) l := by
  induction l generalizing acc with
  | nil => simp [unionAppend]
  | cons x t ih =>
    by_cases hx : x ∈ acc
    · rw [unionAppend, if_pos hx]
      exact (ih acc).cons x
    · rw [unionAppend, if_neg hx]
      exact (ih (acc ++ [x])).cons₂ x

theorem nodup_unionAppend (l : List Name) (acc : List Name) :
    (unionAppend acc l).Nodup := by
  induction l generalizing acc with
  | nil => simp [unionAppend]
  | cons x t ih =>
    by_cases hx : x ∈ acc
    · rw [unionAppend, if_pos hx]
      exact ih acc
    · rw [unionAppend, if_neg hx]
      refine List.nodup_cons.mpr ⟨?_, ih (acc ++ [x])⟩
      intro hmem
      exact ((mem_unionAppend t (acc ++ [x]) x).mp hmem).2 (by simp)

/-- C8: merging two NXDOMAIN values that carry qname lists unions the qname
lists — the first operand's list is kept as a prefix, membership is the union
of both, the result has no duplicates (given the first operand had none), and
the appended part keeps the second operand's order — and overlays the
response maps with the second operand's entry winning on a shared qname. -/
theorem claimC8_nxdomain_merge {R : Type} (a b : NXDomainInfo R)
    (ha : a.qnames.Nodup) :
    (a.add b).qnames.take a.qnames.length = a.qnames ∧
    (∀ q, q ∈ (a.add b).qnames ↔ q ∈ a.qnames ∨ q ∈ b.qnames) ∧
    (a.add b).qnames.Nodup ∧
    List.Sublist ((a.add b).qnames.drop a.qnames.length) b.qnames ∧
    (∀ k, respLookup (a.add b).responses k =
      (respLookup b.responses k).or (respLookup a.responses k)) := by
  refine ⟨?_, ?_, ?_, ?_, ?_⟩
  · exact List.take_left _ _
  · intro q
    simp only [NXDomainInfo.add, List.mem_append, mem_unionAppend]
    constructor
    · rintro (h | ⟨h, _⟩)
      · exact Or.inl h
      · exact Or.inr h
    · rintro (h | h)
      · exact Or.inl h
      · by_cases hq : q ∈ a.qnames
        · exact Or.inl hq
        · exact Or.inr ⟨h, hq⟩
  · refine List.Nodup.append ha (nodup_unionAppend _ _) ?_
    intro q hq hq'
    exact ((mem_unionAppend _ _ q).mp hq').2 hq
  · have : (a.add b).qnames.drop a.qnames.length = unionAppend a.qnames b.qnames :=
      List.drop_left _ _
    rw [this]
    exact sublist_unionAppend _ _
  · intro k
    simp only [NXDomainInfo.add, respLookup, List.find?_append]
    cases List.find? (fun p => decide (p.1 = k)) b.responses <;> simp

/-- Witness for C8 at the `test_nxdomain_merge` fixture (payloads are opaque
strings, `a.b.` is shared): the merge keeps `[a.b., a.b.d.]` as prefix, adds
`a.b.c.`, and the second operand's response wins for `a.b.`. -/
theorem claimC8_nxdomain_merge_witness :
    (nxInfo1.add nxInfo2).qnames.take nxInfo1.qnames.length = nxInfo1.qnames ∧
    (nxInfo1.add nxInfo2).qnames.Nodup ∧
    (nxInfo1.add nxInfo2).qnames = [⟨["a", "b", ""]⟩, ⟨["a", "b", "d", ""]⟩, ⟨["a", "b", "c", ""]⟩] ∧
    respLookup (nxInfo1.add nxInfo2).responses ⟨["a", "b", ""]⟩ = some "r2.2" ∧
    respLookup (nxInfo1.add nxInfo2).responses ⟨["a", "b", "c", ""]⟩ = some "r2.3" ∧
    respLookup (nxInfo1.add nxInfo2).responses ⟨["a", "b", "d", ""]⟩ = some "r1.4" := by
  have h := claimC8_nxdomain_merge nxInfo1 nxInfo2 (by decide)
  exact ⟨h.1, h.2.2.1, by decide, by decide, by decide, by decide⟩

/-! ## Claim C7: LRU bound and eviction order -/

theorem length_eraseKey_lt (l : List (CacheKey × Answer)) (k : CacheKey)
    (a : Answer) (h : lookupKey l k = some a) :
    (eraseKey l k).length < l.length := by
  induction l with
  | nil => simp [lookupKey] at h
  | cons x t ih =>
    by_cases hx : x.1 = k
    · have hxt : eraseKey (x :: t) k = eraseKey t k := by
        simp [eraseKey, List.filter_cons, hx]
      rw [hxt]
      have := List.length_filter_le (fun p => decide (p.1 ≠ k)) t
      simp only [eraseKey, List.length_cons]
      omega
    · have h' : lookupKey t k = some a := by
        simpa [lookupKey, List.find?_cons, hx] using h
      have hxt : eraseKey (x :: t) k = x :: eraseKey t k := by
        simp [eraseKey, List.filter_cons, hx]
      rw [hxt]
      have := ih h'
      simp only [List.length_cons]
      omega

theorem max_size_applyOp (c : LRUCache) (op : CacheOp) :
    (c.applyOp op).max_size = c.max_size := by
  cases op with
  | put k a => rfl
  | get k t =>
    show ((c.get k t).2).max_size = c.max_size
    unfold LRUCache.get
    rcases lookupKey c.entries k with _ | a
    · rfl
    · by_cases he : a.expiration ≤ t <;> simp [he]

theorem length_applyOp_le (c : LRUCache) (op : CacheOp)
    (h : c.entries.length ≤ c.max_size) :
    (c.applyOp op).entries.length ≤ c.max_size := by
  cases op with
  | put k a =>
    show (c.put k a).entries.length ≤ c.max_size
    unfold LRUCache.put
    have hlen : (eraseKey c.entries k).length ≤ c.entries.length :=
      List.length_filter_le _ _
    by_cases hsz : c.max_size < ((k, a) :: eraseKey c.entries k).length
    · rw [if_pos hsz]
      simp only [List.length_dropLast, List.length_cons]
      simp only [List.length_cons] at hsz
      omega
    · rw [if_neg hsz]
      simp only [List.length_cons] at hsz ⊢
      omega
  | get k t =>
    show ((c.get k t).2).entries.length ≤ c.max_size
    unfold LRUCache.get
    rcases hl : lookupKey c.entries k with _ | a
    · simpa using h
    · have hlt := length_eraseKey_lt c.entries k a hl
      by_cases he : a.expiration ≤ t
      · simp only [if_pos he]
        omega
      · simp only [if_neg he]
        simp only [List.length_cons]
        omega

theorem applyOps_bound (ops : List CacheOp) (c : LRUCache)
    (h : c.entries.length ≤ c.max_size) :
    (c.applyOps ops).entries.length ≤ (c.applyOps ops).max_size ∧
    (c.applyOps ops).max_size = c.max_size := by
  induction ops generalizing c with
  | nil => exact ⟨h, rfl⟩
  | cons op ops ih =>
    have hstep : (c.applyOp op).entries.length ≤ (c.applyOp op).max_size := by
      rw [max_size_applyOp]
      exact length_applyOp_le c op h
    have := ih (c.applyOp op) hstep
    refine ⟨?_, ?_⟩
    · simpa [LRUCache.applyOps, List.foldl_cons] using this.1
    · have := this.2
      simp only [LRUCache.applyOps, List.foldl_cons] at *
      rw [this, max_size_applyOp]

theorem keysNodup_eraseKey (l : List (CacheKey × Answer)) (k : CacheKey)
    (h : KeysNodup l) : KeysNodup (eraseKey l k) :=
  h.sublist ((List.filter_sublist l).map Prod.fst)

theorem keysNodup_cons_eraseKey (l : List (CacheKey × Answer)) (k : CacheKey)
    (a : Answer) (h : KeysNodup l) : KeysNodup ((k, a) :: eraseKey l k) := by
  unfold KeysNodup
  rw [List.map_cons, List.nodup_cons]
  refine ⟨?_, keysNodup_eraseKey l k h⟩
  intro hmem
  rcases List.mem_map.mp hmem with ⟨p, hp, hpk⟩
  have hne : p.1 ≠ k := by simpa using List.of_mem_filter hp
  exact hne hpk

theorem keysNodup_applyOp (c : LRUCache) (op : CacheOp)
    (h : KeysNodup c.entries) : KeysNodup (c.applyOp op).entries := by
  cases op with
  | put k a =>
    show KeysNodup (c.put k a).entries
    unfold LRUCache.put
    by_cases hsz : c.max_size < ((k, a) :: eraseKey c.entries k).length
    · simp only [if_pos hsz]
      exact (keysNodup_cons_eraseKey c.entries k a h).sublist
        ((List.dropLast_sublist _).map Prod.fst)
    · simp only [if_neg hsz]
      exact keysNodup_cons_eraseKey c.entries k a h
  | get k t =>
    show KeysNodup ((c.get k t).2).entries
    unfold LRUCache.get
    rcases hl : lookupKey c.entries k with _ | a
    · simpa using h
    · by_cases he : a.expiration ≤ t
      · simp only [if_pos he]
        exact keysNodup_eraseKey c.entries k h
      · simp only [if_neg he]
        exact keysNodup_cons_eraseKey c.entries k a h

theorem applyOps_keysNodup (ops : List CacheOp) (c : LRUCache)
    (h : KeysNodup c.entries) : KeysNodup (c.applyOps ops).entries := by
  induction ops generalizing c with
  | nil => exact h
  | cons op ops ih =>
    simpa [LRUCache.applyOps, List.foldl_cons] using
      ih (c.applyOp op) (keysNodup_applyOp c op h)

/-- C7: over any operation sequence an `LRUCache` with `max_size ≥ 1` never
holds more than `max_size` entries; a `put` of a fresh key into a full cache
keeps the new binding in front and evicts exactly the final — least recently
accessed — entry of the recency order; a live `get` hit and a `put` overwrite
move the key to the most-recently-used position (the overwrite without
eviction); and key-distinctness is preserved throughout. -/
theorem claimC7_lru_bound (ms : ℕ) (ops : List CacheOp) (c : LRUCache)
    (k : CacheKey) (a v : Answer) (t : ℚ) :
    (((LRUCache.empty ms).applyOps ops).entries.length ≤ ms) ∧
    (1 ≤ c.max_size → c.entries.length = c.max_size →
       lookupKey c.entries k = none →
       (c.put k v).entries = (k, v) :: c.entries.dropLast ∧
       ∀ h : c.entries ≠ [],
         c.entries.dropLast ++ [c.entries.getLast h] = c.entries) ∧
    (lookupKey c.entries k = some a → ¬ a.expiration ≤ t →
       c.get k t = (some a, { c with entries := (k, a) :: eraseKey c.entries k })) ∧
    (KeysNodup c.entries → lookupKey c.entries k = some a →
       c.entries.length ≤ c.max_size →
       (c.put k v).entries = (k, v) :: eraseKey c.entries k) ∧
    (KeysNodup c.entries → KeysNodup (c.applyOps ops).entries) := by
  refine ⟨?_, ?_, ?_, ?_, applyOps_keysNodup ops c⟩
  · have h := applyOps_bound ops (LRUCache.empty ms) (by simp [LRUCache.empty])
    exact h.1.trans_eq h.2
  · intro hm hfull habs
    have he : eraseKey c.entries k = c.entries := eraseKey_of_none _ _ habs
    constructor
    · show (c.put k v).entries = _
      unfold LRUCache.put
      rw [he]
      have hsz : c.max_size < ((k, v) :: c.entries).length := by
        simp only [List.length_cons]
        omega
      rw [if_pos hsz]
      have hne : c.entries ≠ [] := by
        intro h0
        rw [h0] at hfull
        simp at hfull
        omega
      rcases hcc : c.entries with _ | ⟨x, xs⟩
      · exact absurd hcc hne
      · rfl
    · intro h
      exact List.dropLast_append_getLast h
  · intro hl hlive
    show c.get k t = _
    unfold LRUCache.get
    rw [hl]
    simp [hlive]
  · intro hn hl hle
    show (c.put k v).entries = _
    unfold LRUCache.put
    have hlen := length_eraseKey_of_mem c.entries k a hn hl
    have hsz : ¬ c.max_size < ((k, v) :: eraseKey c.entries k).length := by
      simp only [List.length_cons]
      omega
    rw [if_neg hsz]

/-- Witness for C7 at the `testLRUDoesLRU` scenario: four puts into a
four-entry cache, a touch of `example0.`, then the put of `example4.` evicts
exactly `example1.`, the least recently accessed entry. -/
theorem claimC7_lru_bound_witness :
    (((LRUCache.empty 4).applyOps
        [.put (lruKey 0) (fakeAnswer 0), .put (lruKey 1) (fakeAnswer 1),
         .put (lruKey 2) (fakeAnswer 2), .put (lruKey 3) (fakeAnswer 3),
         .get (lruKey 0) 1000]).entries.length ≤ 4) ∧
    (lruTouched.put (lruKey 4) (fakeAnswer 4)).entries =
      (lruKey 4, fakeAnswer 4) :: lruTouched.entries.dropLast ∧
    lookupKey (lruTouched.put (lruKey 4) (fakeAnswer 4)).entries (lruKey 1) = none := by
  have h := claimC7_lru_bound 4
    [.put (lruKey 0) (fakeAnswer 0), .put (lruKey 1) (fakeAnswer 1),
     .put (lruKey 2) (fakeAnswer 2), .put (lruKey 3) (fakeAnswer 3),
     .get (lruKey 0) 1000]
    lruTouched (lruKey 4) (fakeAnswer 0) (fakeAnswer 4) 1000
  refine ⟨h.1, (h.2.1 (by decide) (by decide) (by decide)).1, by decide⟩

/-! ## Claim C1: the classifier's error partition -/

/-- C1: `query_result` removes the responding nameserver and yields
`(none, false)` for a format error, end-of-stream, truncation on a stream
attempt, or not-implemented, and likewise for a SERVFAIL response with
`retry_servfail` off and for any other non-zero rcode except
YXDOMAIN/NXDOMAIN; it keeps the nameserver list unchanged and yields
`(none, false)` for a timeout and for a SERVFAIL response with
`retry_servfail` on. -/
theorem claimC1_classifier_partition (s : Resolution) (cache : Cache) (now : ℚ)
    (ns : Nameserver) (e : QueryError) (msg : Message)
    (hns : s.nameserver = some ns) :
    ((e = .formError ∨ e = .eofError ∨ e = .notImplemented ∨
        (e = .truncated ∧ s.tcp_attempt = true)) →
      s.query_result cache now none (some e) =
        .ok (none, false, { s with nameservers := s.nameservers.erase ns }, cache)) ∧
    (s.query_result cache now none (some .timeout) = .ok (none, false, s, cache)) ∧
    (msg.rcode = rcodeSERVFAIL → s.retry_servfail = false →
      s.query_result cache now (some msg) none =
        .ok (none, false, { s with nameservers := s.nameservers.erase ns }, cache)) ∧
    (msg.rcode = rcodeSERVFAIL → s.retry_servfail = true →
      s.query_result cache now (some msg) none = .ok (none, false, s, cache)) ∧
    (msg.rcode ≠ rcodeNOERROR → msg.rcode ≠ rcodeSERVFAIL →
      msg.rcode ≠ rcodeNXDOMAIN → msg.rcode ≠ rcodeYXDOMAIN →
      s.query_result cache now (some msg) none =
        .ok (none, false, { s with nameservers := s.nameservers.erase ns }, cache)) := by
  have hrm : s.removeCurrent = { s with nameservers := s.nameservers.erase ns } := by
    unfold Resolution.removeCurrent
    rw [hns]
  refine ⟨?_, ?_, ?_, ?_, ?_⟩
  · rintro (rfl | rfl | rfl | ⟨rfl, htcp⟩)
    · simp [Resolution.query_result, Resolution.query_error, hrm]
    · simp [Resolution.query_result, Resolution.query_error, hrm]
    · simp [Resolution.query_result, Resolution.query_error, hrm]
    · simp [Resolution.query_result, Resolution.query_error, hrm, htcp]
  · simp [Resolution.query_result, Resolution.query_error]
  · intro hsf hretry
    simp [Resolution.query_result, hsf, hretry, hrm, rcodeSERVFAIL, rcodeYXDOMAIN]
  · intro hsf hretry
    simp [Resolution.query_result, hsf, hretry, rcodeSERVFAIL, rcodeYXDOMAIN]
  · intro h0 hsf hnx hyx
    simp [Resolution.query_result, h0, hsf, hnx, hyx, hrm]

/-- Witness for C1 at the `setUp` state pointing at `10.0.0.1`: a form error
and a REFUSED response each remove `10.0.0.1`, a timeout and a
SERVFAIL-with-retry keep the list, a plain SERVFAIL removes. -/
theorem claimC1_classifier_partition_witness :
    resnAtA.query_result Cache.empty 100 none (some .formError) =
      .ok (none, false, { resnAtA with nameservers := [nsB] }, Cache.empty) ∧
    resnAtA.query_result Cache.empty 100 none (some .timeout) =
      .ok (none, false, resnAtA, Cache.empty) ∧
    resnAtA.query_result Cache.empty 100 (some servfailMsg) none =
      .ok (none, false, { resnAtA with nameservers := [nsB] }, Cache.empty) ∧
    { resnAtA with retry_servfail := true }.query_result Cache.empty 100
        (some servfailMsg) none =
      .ok (none, false, { resnAtA with retry_servfail := true }, Cache.empty) ∧
    resnAtA.query_result Cache.empty 100 (some refusedMsg) none =
      .ok (none, false, { resnAtA with nameservers := [nsB] }, Cache.empty) := by
  have h := claimC1_classifier_partition resnAtA Cache.empty 100 nsA .formError
    servfailMsg rfl
  have h2 := claimC1_classifier_partition { resnAtA with retry_servfail := true }
    Cache.empty 100 nsA .timeout servfailMsg rfl
  have h3 := claimC1_classifier_partition resnAtA Cache.empty 100 nsA .timeout
    refusedMsg rfl
  have herase : resnAtA.nameservers.erase nsA = [nsB] := by decide
  refine ⟨?_, h.2.1, ?_, ?_, ?_⟩
  · have := h.1 (Or.inl rfl)
    rw [herase] at this
    exact this
  · have := h.2.2.1 rfl rfl
    rw [herase] at this
    exact this
  · exact h2.2.2.2.1 rfl rfl
  · have := h3.2.2.2.2 (by decide) (by decide) (by decide) (by decide)
    rw [herase] at this
    exact this

/-! ## Claim C3: datagram truncation upgrades to TCP -/

/-- C3: a truncation on a datagram attempt sets the sticky `retry_with_tcp`
flag, removes no nameserver and yields `(none, false)`; the next
`next_nameserver` call returns the same nameserver as its last return with
`use_tcp` true and backoff 0 and clears the flag; and any call in the cleared
state returns `use_tcp` false with the flag still clear (normal rotation). -/
theorem claimC3_truncation_tcp (s s2 : Resolution) (cache : Cache) (now : ℚ)
    (ns : Nameserver) :
    (s.tcp_attempt = false →
      s.query_result cache now none (some .truncated) =
        .ok (none, false, { s with retry_with_tcp := true }, cache)) ∧
    (s.retry_with_tcp = true → s.nameserver = some ns →
      s.next_nameserver = .ok ((ns, s.port, true, 0), { s with retry_with_tcp := false })) ∧
    (s2.retry_with_tcp = false →
      ∀ r s3, s2.next_nameserver = .ok (r, s3) →
        r.2.2.1 = false ∧ s3.retry_with_tcp = false) := by
  refine ⟨?_, ?_, ?_⟩
  · intro htcp
    simp [Resolution.query_result, Resolution.query_error, htcp]
  · intro hretry hns
    simp [Resolution.next_nameserver, hretry, hns]
  · intro hretry r s3 h
    unfold Resolution.next_nameserver at h
    rw [hretry] at h
    simp only [Bool.false_eq_true, if_false] at h
    rcases hc : s2.current_nameservers with _ | ⟨x, rest⟩
    · rw [hc] at h
      rcases hn : s2.nameservers with _ | ⟨y, ys⟩ <;> rw [hn] at h
      · simp at h
      · simp only [Except.ok.injEq, Prod.mk.injEq] at h
        rcases h with ⟨rfl, rfl⟩
        exact ⟨rfl, rfl⟩
    · rw [hc] at h
      simp only [Except.ok.injEq, Prod.mk.injEq] at h
      rcases h with ⟨rfl, rfl⟩
      exact ⟨rfl, rfl⟩

/-- Witness for C3 at the `test_query_result_retry_with_tcp` /
`test_next_nameserver_retry_with_tcp` scenario: after a datagram truncation
at `10.0.0.1` the flag is set; the flagged state returns `10.0.0.1` again
over TCP with backoff 0 and clears the flag; the cleared state then rotates
to `10.0.0.2` over UDP. -/
theorem claimC3_truncation_tcp_witness :
    resnAtA.query_result Cache.empty 100 none (some .truncated) =
      .ok (none, false, { resnAtA with retry_with_tcp := true }, Cache.empty) ∧
    { resnAtA with retry_with_tcp := true }.next_nameserver =
      .ok ((nsA, 53, true, 0), resnAtA) ∧
    ∀ r s3, resnAtA.next_nameserver = .ok (r, s3) →
      r.2.2.1 = false ∧ s3.retry_with_tcp = false := by
  have h := claimC3_truncation_tcp { resnAtA with retry_with_tcp := true }
    resnAtA Cache.empty 100 nsA
  have h1 := claimC3_truncation_tcp resnAtA resnAtA Cache.empty 100 nsA
  refine ⟨h1.1 rfl, ?_, h.2.2 rfl⟩
  have := h.2.1 rfl rfl
  simpa using this

/-! ## Claim C5: NXDOMAIN responses shadow under the ANY key -/

theorem respLookup_putResponse (l : List (Name × Message)) (q : Name)
    (m : Message) : respLookup (putResponse l q m) q = some m := by
  induction l with
  | nil => simp [putResponse, respLookup]
  | cons x t ih =>
    by_cases hx : x.1 = q
    · have hc : putResponse (x :: t) q m =
          (q, m) :: t.map (fun p => if p.1 = q then (q, m) else p) := by
        simp [putResponse, List.any_cons, hx]
      rw [hc]
      simp [respLookup, List.find?_cons]
    · by_cases hany : (t.any fun p => decide (p.1 = q)) = true
      · have hpt : putResponse t q m =
            t.map (fun p => if p.1 = q then (q, m) else p) := by
          simp [putResponse, hany]
        have hc : putResponse (x :: t) q m =
            x :: t.map (fun p => if p.1 = q then (q, m) else p) := by
          simp [putResponse, List.any_cons, hx, hany]
        rw [hc]
        have hskip : respLookup
            (x :: t.map (fun p => if p.1 = q then (q, m) else p)) q =
            respLookup (t.map (fun p => if p.1 = q then (q, m) else p)) q := by
          simp [respLookup, List.find?_cons, hx]
        rw [hskip, ← hpt]
        exact ih
      · have hc : putResponse (x :: t) q m = (x :: t) ++ [(q, m)] := by
          simp [putResponse, List.any_cons, hx, hany]
        rw [hc]
        have hnone : List.find? (fun p => decide (p.1 = q)) (x :: t) = none := by
          rw [List.find?_eq_none]
          intro p hp
          rcases List.mem_cons.mp hp with rfl | hp'
          · simp [hx]
          · intro hd
            exact hany (List.any_eq_true.mpr ⟨p, hp', hd⟩)
        simp only [respLookup, List.find?_append, hnone, Option.none_or]
        simp [List.find?_cons]

theorem lookupKey_eraseKey_ne (l : List (CacheKey × Answer)) (k k' : CacheKey)
    (h : k' ≠ k) : lookupKey (eraseKey l k) k' = lookupKey l k' := by
  induction l with
  | nil => rfl
  | cons x t ih =>
    by_cases hx : x.1 = k
    · have hxk' : x.1 ≠ k' := by rw [hx]; exact fun hh => h hh.symm
      have he : eraseKey (x :: t) k = eraseKey t k := by
        simp [eraseKey, List.filter_cons, hx]
      rw [he, ih]
      simp [lookupKey, List.find?_cons, hxk']
    · have he : eraseKey (x :: t) k = x :: eraseKey t k := by
        simp [eraseKey, List.filter_cons, hx]
      rw [he]
      by_cases hxk' : x.1 = k'
      · simp [lookupKey, List.find?_cons, hxk']
      · simp only [lookupKey, List.find?_cons, hxk']
        simpa [lookupKey, hxk'] using ih

/-- C5: an NXDOMAIN response accepted by `query_result` is recorded for the
current qname, cached under the `(qname, ANY, rdclass)` key — leaving the
queried-rdtype key untouched — and yields `(none, true)`; a later
`next_request` finding an unexpired ANY-shadow entry with rcode NXDOMAIN for
its next qname records that response and advances to the remaining qnames
without issuing a query; and once the qnames are exhausted `next_request`
fails with an NXDOMAIN carrying every accumulated per-qname response. -/
theorem claimC5_negative_shadow (s : Resolution) (cache c1 c2 : Cache)
    (now : ℚ) (msg : Message) (q : Name) (rest : List Name) (a : Answer) :
    (msg.rcode = rcodeNXDOMAIN →
      s.query_result cache now (some msg) none =
        .ok (none, true,
          { s with nxdomain_responses := putResponse s.nxdomain_responses s.qname msg },
          cache.put (s.qname, rdtypeANY, s.rdclass)
            (mkAnswer s.qname rdtypeANY s.rdclass msg now) now) ∧
      (mkAnswer s.qname rdtypeANY s.rdclass msg now).response = msg ∧
      respLookup (putResponse s.nxdomain_responses s.qname msg) s.qname = some msg) ∧
    (s.rdtype ≠ rdtypeANY →
      lookupKey (cache.put (s.qname, rdtypeANY, s.rdclass) a now).data
          (s.qname, s.rdtype, s.rdclass) =
        lookupKey (cache.maybeClean now).data (s.qname, s.rdtype, s.rdclass)) ∧
    (s.qnames_to_try = q :: rest →
      cache.get (q, s.rdtype, s.rdclass) now = (none, c1) →
      c1.get (q, rdtypeANY, s.rdclass) now = (some a, c2) →
      a.response.rcode = rcodeNXDOMAIN →
      s.next_request cache now =
        nextRequestAux now rest
          { s with qname := q, qnames_to_try := rest,
                   nxdomain_responses := putResponse s.nxdomain_responses q a.response }
          c2) ∧
    (s.qnames_to_try = [] →
      s.next_request cache now =
        .error (.nxdomain (s.nxdomain_responses.map Prod.fst) s.nxdomain_responses)) := by
  refine ⟨?_, ?_, ?_, ?_⟩
  · intro hnx
    refine ⟨?_, rfl, respLookup_putResponse _ _ _⟩
    simp [Resolution.query_result, hnx, rcodeNXDOMAIN, rcodeYXDOMAIN, rcodeSERVFAIL]
  · intro hne
    have hkey : ((s.qname, s.rdtype, s.rdclass) : CacheKey) ≠ (s.qname, rdtypeANY, s.rdclass) := by
      intro hh
      exact hne (congrArg (fun p => p.2.1) hh)
    show lookupKey (eraseKey (cache.maybeClean now).data (s.qname, rdtypeANY, s.rdclass) ++
        [((s.qname, rdtypeANY, s.rdclass), a)]) (s.qname, s.rdtype, s.rdclass) = _
    rw [lookupKey_append, lookupKey_eraseKey_ne _ _ _ hkey]
    have hsingle : lookupKey [((s.qname, rdtypeANY, s.rdclass), a)]
        (s.qname, s.rdtype, s.rdclass) = none := by
      rw [lookupKey_eq_none_iff]
      intro p hp
      rcases List.mem_singleton.mp hp with rfl
      exact fun hh => hkey hh.symm
    rw [hsingle]
    cases lookupKey (cache.maybeClean now).data (s.qname, s.rdtype, s.rdclass) <;> rfl
  · intro hq h1 h2 h3
    unfold Resolution.next_request
    rw [hq]
    simp only [nextRequestAux, h1, h2, h3, rcodeNXDOMAIN, ite_true, if_pos]
  · intro hq
    unfold Resolution.next_request
    rw [hq]
    rfl

/-- Witness for C5 at the `test_query_result_nxdomain_cached` /
`test_next_request_cached_nxdomain` scenario: the NXDOMAIN response is
accepted as `(none, true)` with the shadow cached under the ANY key, and a
`next_request` against the shadow cache classifies NXDOMAIN without a query
and then fails with the accumulated responses. -/
theorem claimC5_negative_shadow_witness :
    resnAtA.query_result Cache.empty 100 (some nxMsg) none =
      .ok (none, true,
        { resnAtA with nxdomain_responses := [(wwwAbs, nxMsg)] },
        Cache.empty.put (wwwAbs, rdtypeANY, rdclassIN)
          (mkAnswer wwwAbs rdtypeANY rdclassIN nxMsg 100) 100) ∧
    { resnAB with qnames_to_try := [wwwAbs] }.next_request shadowCache 100 =
      .error (.nxdomain [wwwAbs] [(wwwAbs, nxMsg)]) := by
  have h := claimC5_negative_shadow resnAtA Cache.empty Cache.empty Cache.empty
    100 nxMsg wwwAbs [] shadowAnswer
  have h2 := claimC5_negative_shadow { resnAB with qnames_to_try := [wwwAbs] }
    shadowCache shadowCache shadowCache 100 nxMsg wwwAbs [] shadowAnswer
  constructor
  · have ha := (h.1 (by decide)).1
    have hrec : putResponse resnAtA.nxdomain_responses resnAtA.qname nxMsg =
        [(wwwAbs, nxMsg)] := by decide
    rw [hrec] at ha
    exact ha
  · have hstep := h2.2.2.1 rfl (by decide) (by decide) (by decide)
    have h3 := claimC5_negative_shadow
      { resnAB with qname := wwwAbs, qnames_to_try := [],
                    nxdomain_responses := putResponse resnAB.nxdomain_responses wwwAbs
                      shadowAnswer.response }
      shadowCache shadowCache shadowCache 100 nxMsg wwwAbs [] shadowAnswer
    have hend := h3.2.2.2 rfl
    unfold Resolution.next_request at hend
    rw [hstep]
    have hrw : putResponse resnAB.nxdomain_responses wwwAbs shadowAnswer.response =
        [(wwwAbs, nxMsg)] := by decide
    rw [hrw] at hend ⊢
    have : ([(wwwAbs, nxMsg)].map Prod.fst) = [wwwAbs] := by decide
    rw [this] at hend
    exact hend

/-! ## Claim C4: the qname planner -/

/-- C4 counterexample: on the repository's own `test_next_request_rel`
scenario (relative `www.dnspython.org`, two dots ≥ `ndots` = 1, search flag
false, domain `example`), the claim — and the spec-literal planner following
its words — predicts the single output `[www.dnspython.org.example.]`, while
the planner pinned by the repository's tests first root-qualifies the name
and yields two qnames. -/
theorem claimC4_planner_counterexample :
    getQnamesToTry testCfg wwwRel (some false) ≠
      [wwwRel.concatenate exampleDomain] ∧
    getQnamesToTrySpecLiteral testCfg wwwRel (some false) =
      [wwwRel.concatenate exampleDomain] ∧
    getQnamesToTry testCfg wwwRel (some false) =
      [⟨["www", "dnspython", "org", ""]⟩,
       ⟨["www", "dnspython", "org", "example", ""]⟩] := by
  refine ⟨by decide, by decide, by decide⟩

/-- C4 amended: the planner returns an absolute input alone; for a relative
input it resolves an unspecified search flag to `use_search_by_default`,
tries the root-qualified input first exactly when the input has at least
`ndots` dots (label count above `ndots`), and then appends either the
search-list expansions (searching with a non-empty search list) or the single
`input + domain` fallback; the output is never empty. -/
theorem claimC4_planner_amended (cfg : ResolverConfig) (q : Name)
    (flag : Option Bool) :
    (q.is_absolute = true → getQnamesToTry cfg q flag = [q]) ∧
    (q.is_absolute = false →
      (flag.getD cfg.use_search_by_default && !cfg.search.isEmpty) = true →
      (cfg.ndots < q.len →
        getQnamesToTry cfg q flag =
          q.concatenate nameRoot :: cfg.search.map (fun sfx => q.concatenate sfx)) ∧
      (¬ cfg.ndots < q.len →
        getQnamesToTry cfg q flag =
          cfg.search.map (fun sfx => q.concatenate sfx))) ∧
    (q.is_absolute = false →
      (flag.getD cfg.use_search_by_default && !cfg.search.isEmpty) = false →
      (cfg.ndots < q.len →
        getQnamesToTry cfg q flag =
          [q.concatenate nameRoot, q.concatenate cfg.domain]) ∧
      (¬ cfg.ndots < q.len →
        getQnamesToTry cfg q flag = [q.concatenate cfg.domain])) ∧
    getQnamesToTry cfg q flag ≠ [] := by
  refine ⟨?_, ?_, ?_, ?_⟩
  · intro habs
    simp [getQnamesToTry, habs]
  · intro habs hsearch
    constructor <;> intro hdots <;>
      simp [getQnamesToTry, habs, hsearch, hdots]
  · intro habs hsearch
    constructor <;> intro hdots <;>
      simp [getQnamesToTry, habs, hsearch, hdots]
  · unfold getQnamesToTry
    by_cases habs : q.is_absolute = true
    · simp [habs]
    · simp only [Bool.not_eq_true] at habs
      simp only [habs, Bool.false_eq_true, if_false]
      by_cases hsearch : (flag.getD cfg.use_search_by_default && !cfg.search.isEmpty) = true
      · rw [if_pos hsearch]
        rcases hs : cfg.search with _ | ⟨y, ys⟩
        · rw [hs] at hsearch
          simp at hsearch
        · simp
      · rw [if_neg hsearch]
        simp

/-- Witness for the amended C4 on the `testSearchListsRelative` data:
relative `www` with search list `[dnspython.org., dnspython.net.]` expands
to the two search names when searching, and falls back to `www.example.` when
not; relative `www.dnspython.org` without searching tries the root-qualified
name first. -/
theorem claimC4_planner_amended_witness :
    getQnamesToTry { testCfg with
        search := [⟨["dnspython", "org", ""]⟩, ⟨["dnspython", "net", ""]⟩] }
      ⟨["www"]⟩ (some true) =
      [⟨["www", "dnspython", "org", ""]⟩, ⟨["www", "dnspython", "net", ""]⟩] ∧
    getQnamesToTry { testCfg with
        search := [⟨["dnspython", "org", ""]⟩, ⟨["dnspython", "net", ""]⟩] }
      ⟨["www"]⟩ (some false) = [⟨["www", "example", ""]⟩] ∧
    getQnamesToTry testCfg wwwRel (some false) =
      [⟨["www", "dnspython", "org", ""]⟩,
       ⟨["www", "dnspython", "org", "example", ""]⟩] ∧
    getQnamesToTry testCfg wwwAbs none = [wwwAbs] := by
  have h1 := claimC4_planner_amended { testCfg with
      search := [⟨["dnspython", "org", ""]⟩, ⟨["dnspython", "net", ""]⟩] }
    ⟨["www"]⟩ (some true)
  have h2 := claimC4_planner_amended { testCfg with
      search := [⟨["dnspython", "org", ""]⟩, ⟨["dnspython", "net", ""]⟩] }
    ⟨["www"]⟩ (some false)
  have h3 := claimC4_planner_amended testCfg wwwRel (some false)
  have h4 := claimC4_planner_amended testCfg wwwAbs none
  refine ⟨?_, ?_, ?_, h4.1 (by decide)⟩
  · have := (h1.2.1 (by decide) (by decide)).2 (by decide)
    rw [this]
    decide
  · have := (h2.2.2.1 (by decide) (by decide)).2 (by decide)
    rw [this]
    decide
  · have := (h3.2.2.1 (by decide) (by decide)).1 (by decide)
    rw [this]
    decide

/-! ## Claim C2: rotation, backoff schedule, and the round bound -/

theorem runCalls_stuck (s : Resolution) (e : ResolverError)
    (h : s.next_nameserver = .error e) (b : ℕ) : runCalls s b = ([], s) := by
  cases b <;> simp [runCalls, h]

theorem runCalls_succ (s s1 : Resolution) (ns : Nameserver) (p : ℕ) (tc : Bool)
    (b : ℚ) (h : s.next_nameserver = .ok ((ns, p, tc, b), s1)) (c : ℕ) :
    runCalls s (c + 1) =
      ((ns, b) :: (runCalls s1 c).1, (runCalls s1 c).2) := by
  simp [runCalls, h]

theorem runCalls_add (a : ℕ) : ∀ (b : ℕ) (s : Resolution),
    runCalls s (a + b) =
      ((runCalls s a).1 ++ (runCalls (runCalls s a).2 b).1,
       (runCalls (runCalls s a).2 b).2) := by
  induction a with
  | zero => intro b s; simp [runCalls]
  | succ a ih =>
    intro b s
    rcases h : s.next_nameserver with e | ⟨⟨ns, p, tc, bo⟩, s1⟩
    · have hc : a + 1 + b = (a + b) + 1 := by omega
      rw [hc]
      simp [runCalls_stuck s e h]
    · have hstep := runCalls_succ s s1 ns p tc bo h
      have : a + 1 + b = (a + b) + 1 := by omega
      rw [this, hstep (a + b), hstep a, ih b s1]
      simp

theorem runCalls_consume (l : List Nameserver) : ∀ s : Resolution,
    s.retry_with_tcp = false → s.current_nameservers = l →
    (runCalls s l.length).1 = l.map (fun x => (x, (0 : ℚ))) ∧
    (runCalls s l.length).2.current_nameservers = [] ∧
    (runCalls s l.length).2.round = s.round ∧
    (runCalls s l.length).2.nameservers = s.nameservers ∧
    (runCalls s l.length).2.retry_with_tcp = false ∧
    (runCalls s l.length).2.port = s.port := by
  induction l with
  | nil =>
    intro s h1 h2
    simp [runCalls, h1, h2]
  | cons x t ih =>
    intro s h1 h2
    have hnext : s.next_nameserver =
        .ok ((x, s.port, false, 0),
             { s with current_nameservers := t, nameserver := some x }) := by
      simp [Resolution.next_nameserver, h1, h2]
    have hs' := ih { s with current_nameservers := t, nameserver := some x }
      (by simpa using h1) rfl
    rw [List.length_cons, runCalls_succ _ _ _ _ _ _ hnext t.length]
    simp only [List.map_cons]
    exact ⟨by rw [hs'.1], hs'.2.1, hs'.2.2.1, hs'.2.2.2.1, hs'.2.2.2.2.1,
           hs'.2.2.2.2.2⟩

theorem runCalls_round (y : Nameserver) (ys : List Nameserver)
    (s : Resolution) (h1 : s.retry_with_tcp = false)
    (h2 : s.current_nameservers = []) (h3 : s.nameservers = y :: ys) :
    (runCalls s (y :: ys).length).1 =
      (y, backoffOf s.round) :: ys.map (fun x => (x, (0 : ℚ))) ∧
    (runCalls s (y :: ys).length).2.current_nameservers = [] ∧
    (runCalls s (y :: ys).length).2.round = s.round + 1 ∧
    (runCalls s (y :: ys).length).2.nameservers = y :: ys ∧
    (runCalls s (y :: ys).length).2.retry_with_tcp = false ∧
    (runCalls s (y :: ys).length).2.port = s.port := by
  have hnext : s.next_nameserver =
      .ok ((y, s.port, false, backoffOf s.round),
           { s with current_nameservers := ys, round := s.round + 1,
                    nameserver := some y }) := by
    simp [Resolution.next_nameserver, h1, h2, h3]
  have hs' := runCalls_consume ys
    { s with current_nameservers := ys, round := s.round + 1, nameserver := some y }
    (by simpa using h1) rfl
  rw [List.length_cons, runCalls_succ _ _ _ _ _ _ hnext ys.length]
  refine ⟨by rw [hs'.1], hs'.2.1, by rw [hs'.2.2.1], ?_, hs'.2.2.2.2.1,
          hs'.2.2.2.2.2⟩
  rw [hs'.2.2.2.1]
  exact h3

theorem runCalls_rounds (y : Nameserver) (ys : List Nameserver) (m : ℕ) :
    ∀ s : Resolution, s.retry_with_tcp = false →
    s.current_nameservers = [] → s.nameservers = y :: ys →
    (runCalls s (m * (y :: ys).length)).1 =
      (List.range m).flatMap
        (fun k => (y, backoffOf (s.round + k)) :: ys.map (fun x => (x, (0 : ℚ)))) ∧
    (runCalls s (m * (y :: ys).length)).2.current_nameservers = [] ∧
    (runCalls s (m * (y :: ys).length)).2.round = s.round + m ∧
    (runCalls s (m * (y :: ys).length)).2.nameservers = y :: ys ∧
    (runCalls s (m * (y :: ys).length)).2.retry_with_tcp = false := by
  induction m with
  | zero =>
    intro s h1 h2 h3
    simp [runCalls, h1, h2, h3]
  | succ m ih =>
    intro s h1 h2 h3
    have hmul : (m + 1) * (y :: ys).length = m * (y :: ys).length + (y :: ys).length := by
      ring
    have hsplit := runCalls_add (m * (y :: ys).length) ((y :: ys).length) s
    have hm := ih s h1 h2 h3
    have hlast := runCalls_round y ys (runCalls s (m * (y :: ys).length)).2
      hm.2.2.2.2 hm.2.1 hm.2.2.2.1
    rw [hmul, hsplit]
    refine ⟨?_, hlast.2.1, ?_, hlast.2.2.2.1, hlast.2.2.2.2.1⟩
    · rw [hm.1, hlast.1, hm.2.2.1, List.range_succ, List.flatMap_append]
      simp
    · rw [hlast.2.2.1, hm.2.2.1]
      omega

/-- C2: from a fresh rotation over a fixed nameserver list, the calls of the
first `m` rounds return the servers round-robin, with backoff 0 within a
round and the wrap backoff only on the first call of each round; the backoff
of the k-th wrap is `0.1 * 2 ^ (k - 1)` seconds; and in the driver's inner
loop a positive backoff with the round counter at 4 (so reaching 5) fails
`TooManyAttempts` immediately — same trace, so with no sleep and no further
query. -/
theorem claimC2_backoff_rounds (y : Nameserver) (ys : List Nameserver) (m : ℕ)
    (s : Resolution) (T : Transport) (fuel loops : ℕ) (d : Resolution)
    (cache : Cache) (now : ℚ) (tr : Trace) (ns : Nameserver) (p : ℕ)
    (tc : Bool) (b : ℚ) (d1 : Resolution) (k : ℕ) :
    (s.retry_with_tcp = false → s.current_nameservers = [] → s.round = 0 →
      s.nameservers = y :: ys →
      (runCalls s (m * (y :: ys).length)).1 =
        (List.range m).flatMap
          (fun j => (y, backoffOf j) :: ys.map (fun x => (x, (0 : ℚ))))) ∧
    (1 ≤ k → backoffOf k = (1 / 10) * 2 ^ (k - 1)) ∧
    (4 ≤ loops → d.next_nameserver = .ok ((ns, p, tc, b), d1) → b ≠ 0 →
      innerLoop T (fuel + 1) d loops cache now tr =
        (.fail .tooManyAttempts, d1, cache, tr)) := by
  refine ⟨?_, ?_, ?_⟩
  · intro h1 h2 hr h3
    have := (runCalls_rounds y ys m s h1 h2 h3).1
    rw [hr] at this
    simpa using this
  · intro hk
    unfold backoffOf
    rw [if_neg (by omega)]
  · intro hloops hnext hb
    simp only [innerLoop]
    rw [hnext]
    simp [hb, hloops]

/-- Witness for C2 at the `test_next_nameserver_udp` scenario: two rounds
over `[10.0.0.1, 10.0.0.2]` yield backoffs `0, 0, 0.1, 0`, the first-wrap
backoff is `0.1`, and a fourth positive backoff in the driver fails
`TooManyAttempts` with the trace unchanged. -/
theorem claimC2_backoff_rounds_witness :
    (runCalls resnAB 4).1 = [(nsA, 0), (nsB, 0), (nsA, 1 / 10), (nsB, 0)] ∧
    backoffOf 1 = 1 / 10 ∧
    innerLoop transportTimeout 1 resnWrapped 4 Cache.empty 100 ⟨0, []⟩ =
      (.fail .tooManyAttempts, resnWrapped2, Cache.empty, ⟨0, []⟩) := by
  have h := claimC2_backoff_rounds nsA [nsB] 2 resnAB transportTimeout 0 4
    resnWrapped Cache.empty 100 ⟨0, []⟩ nsA 53 false (backoffOf 1) resnWrapped2 1
  have hb1 : backoffOf 1 = 1 / 10 := by
    unfold backoffOf
    norm_num
  refine ⟨?_, hb1, ?_⟩
  · have hrot := h.1 rfl rfl rfl rfl
    rw [show (2 * ([nsA, nsB] : List Nameserver).length) = 4 from rfl] at hrot
    rw [hrot]
    rw [show (List.range 2) = [0, 1] from rfl]
    simp [backoffOf, hb1]
  · have hnext : resnWrapped.next_nameserver =
        .ok ((nsA, 53, false, backoffOf 1), resnWrapped2) := by
      show Resolution.next_nameserver _ = _
      unfold Resolution.next_nameserver
      rfl
    have hbne : backoffOf 1 ≠ 0 := by
      rw [hb1]
      norm_num
    exact h.2.2 (by omega) hnext hbne

/-! ## Claim C10: non-address nameservers never reach the Transport -/

theorem innerLoop_nonaddr_step (T : Transport) (fuel : ℕ) (s : Resolution)
    (loops : ℕ) (cache : Cache) (now : ℚ) (tr : Trace) (x : Nameserver)
    (rest : List Nameserver) (h1 : s.retry_with_tcp = false)
    (h2 : s.current_nameservers = x :: rest) (h3 : x.is_address = false) :
    innerLoop T (fuel + 1) s loops cache now tr =
      innerLoop T fuel
        { s with current_nameservers := rest, nameserver := some x,
                 nameservers := s.nameservers.erase x } loops cache now tr := by
  have hnext : s.next_nameserver =
      .ok ((x, s.port, false, 0),
           { s with current_nameservers := rest, nameserver := some x }) := by
    simp [Resolution.next_nameserver, h1, h2]
  simp only [innerLoop]
  rw [hnext]
  simp [h3, Resolution.query_error, Resolution.removeCurrent]

theorem innerLoop_nonaddr_refill (T : Transport) (fuel : ℕ) (s : Resolution)
    (loops : ℕ) (cache : Cache) (now : ℚ) (tr : Trace) (x : Nameserver)
    (rest : List Nameserver) (h1 : s.retry_with_tcp = false)
    (h2 : s.current_nameservers = []) (h3 : s.nameservers = x :: rest)
    (h4 : s.round = 0) (h5 : x.is_address = false) :
    innerLoop T (fuel + 1) s loops cache now tr =
      innerLoop T fuel
        { s with current_nameservers := rest, round := s.round + 1,
                 nameserver := some x, nameservers := rest } loops cache now tr := by
  have hnext : s.next_nameserver =
      .ok ((x, s.port, false, backoffOf s.round),
           { s with current_nameservers := rest, round := s.round + 1,
                    nameserver := some x }) := by
    simp [Resolution.next_nameserver, h1, h2, h3]
  have hb : backoffOf s.round = 0 := by
    rw [h4]
    rfl
  simp only [innerLoop]
  rw [hnext, hb]
  simp [h5, Resolution.query_error, Resolution.removeCurrent, h3]

theorem innerLoop_nonaddr_drain (l : List Nameserver) :
    ∀ (T : Transport) (fuel : ℕ) (s : Resolution) (loops : ℕ) (cache : Cache)
      (now : ℚ) (tr : Trace),
    s.retry_with_tcp = false → s.current_nameservers = l →
    s.nameservers = l → (∀ x ∈ l, x.is_address = false) →
    l.length + 1 ≤ fuel →
    ∃ s', innerLoop T fuel s loops cache now tr =
      (.fail .noNameservers, s', cache, tr) := by
  induction l with
  | nil =>
    intro T fuel s loops cache now tr h1 h2 h3 _h4 hfuel
    rcases fuel with _ | f
    · omega
    · refine ⟨s, ?_⟩
      have hnext : s.next_nameserver = .error .noNameservers := by
        simp [Resolution.next_nameserver, h1, h2, h3]
      simp only [innerLoop]
      rw [hnext]
  | cons x t ih =>
    intro T fuel s loops cache now tr h1 h2 h3 h4 hfuel
    rcases fuel with _ | f
    · omega
    · rw [innerLoop_nonaddr_step T f s loops cache now tr x t h1 h2
        (h4 x (List.mem_cons_self x t))]
      have herase : s.nameservers.erase x = t := by
        rw [h3]
        exact List.erase_cons_head x t
      rw [herase]
      simp only [List.length_cons] at hfuel
      exact ih T f _ loops cache now tr (by simpa using h1) rfl rfl
        (fun z hz => h4 z (List.mem_cons_of_mem x hz)) (by omega)

/-- C10: the driver handles a non-address nameserver without invoking the
Transport — the attempt surfaces not-implemented internally and the entry is
removed from the rotation (the trace, which counts every Transport
invocation, is passed through unchanged); and a resolve whose configured
nameservers are all non-address strings fails with `NoNameservers` with the
trace untouched, so the network is never contacted. -/
theorem claimC10_nonaddress_nameservers (T : Transport) (fuel loops : ℕ)
    (s : Resolution) (cache : Cache) (now : ℚ) (tr : Trace) (x : Nameserver)
    (rest : List Nameserver) (cfg : ResolverConfig) (qname : Name)
    (rdtype : RdataType) (rdclass : RdataClass) (tcp raise_flag : Bool)
    (search : Option Bool) :
    (s.retry_with_tcp = false → s.current_nameservers = x :: rest →
      x.is_address = false →
      innerLoop T (fuel + 1) s loops cache now tr =
        innerLoop T fuel
          { s with current_nameservers := rest, nameserver := some x,
                   nameservers := s.nameservers.erase x } loops cache now tr) ∧
    (cfg.nameservers ≠ [] → (∀ z ∈ cfg.nameservers, z.is_address = false) →
      cfg.nameservers.length + 2 ≤ fuel →
      ∃ s', innerLoop T fuel
          (Resolution.make cfg qname rdtype rdclass tcp raise_flag search)
          loops cache now tr =
        (.fail .noNameservers, s', cache, tr)) := by
  constructor
  · intro h1 h2 h3
    exact innerLoop_nonaddr_step T fuel s loops cache now tr x rest h1 h2 h3
  · intro hne hnon hfuel
    rcases hcfg : cfg.nameservers with _ | ⟨y, ys⟩
    · exact absurd hcfg hne
    · rcases fuel with _ | f
      · omega
      · have hmk1 : (Resolution.make cfg qname rdtype rdclass tcp raise_flag
            search).retry_with_tcp = false := rfl
        have hmk2 : (Resolution.make cfg qname rdtype rdclass tcp raise_flag
            search).current_nameservers = [] := rfl
        have hmk3 : (Resolution.make cfg qname rdtype rdclass tcp raise_flag
            search).nameservers = y :: ys := hcfg
        have hmk4 : (Resolution.make cfg qname rdtype rdclass tcp raise_flag
            search).round = 0 := rfl
        rw [innerLoop_nonaddr_refill T f _ loops cache now tr y ys hmk1 hmk2
          hmk3 hmk4 (hnon y (by rw [hcfg]; exact List.mem_cons_self y ys))]
        refine innerLoop_nonaddr_drain ys T f _ loops cache now tr rfl rfl rfl
          (fun z hz => hnon z (by rw [hcfg]; exact List.mem_cons_of_mem y hz))
          ?_
        rw [hcfg] at hfuel
        simp only [List.length_cons] at hfuel
        omega

/-- Witness for C10: with the two non-address nameservers `dns.google` and
`doh.example`, the inner loop fails `NoNameservers` at fuel 4 with the trace
still recording zero Transport invocations; and one step on `dns.google`
removes it without a Transport call. -/
theorem claimC10_nonaddress_nameservers_witness :
    (∃ s', innerLoop transportTimeout 4 resnNonAddr 1 Cache.empty 100 ⟨0, []⟩ =
      (.fail .noNameservers, s', Cache.empty, ⟨0, []⟩)) ∧
    innerLoop transportTimeout 2
        { resnNonAddr with current_nameservers := [nsName] }
        1 Cache.empty 100 ⟨0, []⟩ =
      innerLoop transportTimeout 1
        { resnNonAddr with current_nameservers := [], nameserver := some nsName,
                           nameservers := resnNonAddr.nameservers.erase nsName }
        1 Cache.empty 100 ⟨0, []⟩ := by
  have h := claimC10_nonaddress_nameservers transportTimeout 4 1
    { resnNonAddr with current_nameservers := [nsName] } Cache.empty 100
    ⟨0, []⟩ nsName [] { testCfg with nameservers := [nsName, ⟨"doh.example", false⟩] }
    wwwAbs rdtypeA rdclassIN false true none
  constructor
  · exact h.2 (by decide) (by decide) (by decide)
  · have h2 := claimC10_nonaddress_nameservers transportTimeout 1 1
      { resnNonAddr with current_nameservers := [nsName] } Cache.empty 100
      ⟨0, []⟩ nsName [] testCfg wwwAbs rdtypeA rdclassIN false true none
    exact h2.1 rfl rfl rfl

end Dns
